import Mathlib

/-!
# Verification of the monolake worker-service-lifecycle core

A shallow embedding of `monolake-core/src/worker_service_lifecycle`
(`worker_manager.rs`, `worker_fleet_orchestrator.rs`, `mod.rs`), together
with theorems checking the natural-language specification of that core.

Modelling conventions:
* A site table (`HashMap<Arc<String>, ServiceDeploymentManager<S>>`) is an
  association list with unique keys; `lookupSite`, `updateSite` and
  `eraseSite` act on the first matching entry, which matches a map that
  never holds two entries with the same key.
* A service factory (`AsyncMakeService` with `make_via_ref`) is a pure
  function `Option S → Except SE S`; `make()` is `make_via_ref(None)`
  applied to `none`.  A listener factory is modelled by its build outcome
  `Except LErr Unit` (the listener value itself plays no further role in the
  lifecycle state).
* `monoio::spawn(serve(listener, hdr, stop))` is modelled by registering a
  new accept loop in the worker state; dropping the `OReceiver` held by a
  `ServiceManager` (which resolves the loop's stop-cancellation) is
  modelled by marking that loop `stopping`.  A loop is *running* until its
  stop signal has fired; a `stopping` loop is draining and spawns no new
  connection task.
* Connection tasks spawned by the accept loop are recorded as pairs
  `(loop id, site name)`.
-/

set_option maxHeartbeats 1000000

namespace Monolake

/-- `ServiceSlot<S>` from `worker_manager.rs`: `Rc<UnsafeCell<Rc<S>>>`.
In the pure embedding the slot is identified with its current content;
`update_svc` stores a new service, `get_svc` clones the current one. -/
structure ServiceSlot (S : Type) where
  inner : S
deriving DecidableEq

def ServiceSlot.update_svc (_slot : ServiceSlot S) (sharedSvc : S) : ServiceSlot S :=
  { inner := sharedSvc }

def ServiceSlot.get_svc (slot : ServiceSlot S) : S :=
  slot.inner

/-- `ServiceManager<S>`: the deployed slot plus the stop receiver of the
accept loop spawned together with it.  The receiver's identity is the
index of that loop in the worker's loop registry. -/
structure ServiceManager (S : Type) where
  slot : ServiceSlot S
  loopId : Nat
deriving DecidableEq

/-- `ServiceDeploymentManager<S>`: per-site record of the deployed service
(if any) and the staged (prepared but not yet deployed) service. -/
structure ServiceDeploymentManager (S : Type) where
  deployed_service : Option (ServiceManager S)
  staged_service : Option S
deriving DecidableEq

/-- Status of a spawned accept loop (`serve` in `mod.rs`): `running` until
its stop sender's cancellation fires, `stopping` afterwards. -/
inductive LoopStatus where
  | running
  | stopping
deriving DecidableEq

/-- One spawned accept loop: the site it serves and its status. -/
structure LoopInfo where
  site : String
  status : LoopStatus
deriving DecidableEq

/-- The observable state of one worker thread: the site table owned by its
`WorkerManager`, the accept loops spawned on it, and the connection tasks
those loops have spawned (recorded as `(loop id, site)`). -/
structure WorkerState (S : Type) where
  sites : List (String × ServiceDeploymentManager S)
  loops : List LoopInfo
  conns : List (Nat × String)
deriving DecidableEq

def initialWorkerState (S : Type) : WorkerState S :=
  { sites := [], loops := [], conns := [] }

/-- `WorkerDirectiveError` from `worker_manager.rs`. -/
inductive WorkerDirectiveError where
  | siteLookupFailed
  | serviceNotStaged
  | serviceNotDeployed
deriving DecidableEq

/-- `CommandError<SE, LE>` from `worker_manager.rs`. -/
inductive CommandError (SE LErr : Type) where
  | buildService (e : SE)
  | buildListener (e : LErr)
  | siteNotExist
  | preparationNotExist
  | previousHandlerNotExist
deriving DecidableEq

/-- `impl From<WorkerDirectiveError> for CommandError`. -/
def CommandError.fromDirectiveError : WorkerDirectiveError → CommandError SE LErr
  | .siteLookupFailed => .siteNotExist
  | .serviceNotStaged => .preparationNotExist
  | .serviceNotDeployed => .previousHandlerNotExist

/-- `WorkerDirective<F, LF>` from `worker_manager.rs`, with the factory
`F` embedded as `Option S → Except SE S` (its `make_via_ref`) and the
listener factory `LF` by its build outcome. -/
inductive WorkerDirective (S SE LErr : Type) where
  | stageService (name : String) (factory : Option S → Except SE S)
  | updateDeployedWithStaged (name : String)
  | deployNewFromStaged (name : String) (listenerFactory : Except LErr Unit)
  | createAndDeploy (name : String) (factory : Option S → Except SE S)
      (listenerFactory : Except LErr Unit)
  | abortStaging (name : String)
  | removeService (name : String)

/-! ## Site-table primitives (the `HashMap` operations used by the source) -/

def lookupSite : List (String × ServiceDeploymentManager S) → String →
    Option (ServiceDeploymentManager S)
  | [], _ => none
  | (k, v) :: rest, name => if k = name then some v else lookupSite rest name

def updateSite : List (String × ServiceDeploymentManager S) → String →
    (ServiceDeploymentManager S → ServiceDeploymentManager S) →
    List (String × ServiceDeploymentManager S)
  | [], _, _ => []
  | (k, v) :: rest, name, f =>
      if k = name then (k, f v) :: rest else (k, v) :: updateSite rest name f

def eraseSite : List (String × ServiceDeploymentManager S) → String →
    List (String × ServiceDeploymentManager S)
  | [], _ => []
  | (k, v) :: rest, name => if k = name then rest else (k, v) :: eraseSite rest name

/-- Keys of a site table. -/
abbrev siteKeys (sites : List (String × ServiceDeploymentManager S)) : List String :=
  sites.map Prod.fst

/-- Mark the accept loop at the given index as stop-signalled (the drop of
its `OReceiver` resolves the `cancellation` future inside `serve`). -/
def signalStop : List LoopInfo → Nat → List LoopInfo
  | [], _ => []
  | l :: ls, 0 => { l with status := .stopping } :: ls
  | l :: ls, n + 1 => l :: signalStop ls n

/-! ## `WorkerManager` operations (`worker_manager.rs`, lines 114-188) -/

/-- `WorkerManager::get_svc`: look up the site and clone its deployed
service, `None` when the site is absent or nothing is deployed. -/
def get_svc (st : WorkerState S) (name : String) : Option S :=
  (lookupSite st.sites name).bind fun sh =>
    sh.deployed_service.map fun h => h.slot.get_svc

/-- `WorkerManager::stage_svc`: `entry(name).or_insert_with(new)` then
write the staged slot. -/
def stage_svc (st : WorkerState S) (name : String) (svc : S) : WorkerState S :=
  { st with
    sites :=
      if (lookupSite st.sites name).isSome then
        updateSite st.sites name fun sh => { sh with staged_service := some svc }
      else
        st.sites ++ [(name, { deployed_service := none, staged_service := some svc })] }

/-- `WorkerManager::update_deployed_with_staged`: require the site, its
deployed service and its staged entry (checked in that order); move the
staged service into the deployed slot. -/
def update_deployed_with_staged (st : WorkerState S) (name : String) :
    Except WorkerDirectiveError (WorkerState S) :=
  match lookupSite st.sites name with
  | none => .error .siteLookupFailed
  | some sh =>
    match sh.deployed_service with
    | none => .error .serviceNotDeployed
    | some hdr =>
      match sh.staged_service with
      | none => .error .serviceNotStaged
      | some staged =>
        .ok { st with
          sites := updateSite st.sites name fun sh =>
            { sh with
              deployed_service := some { hdr with slot := hdr.slot.update_svc staged }
              staged_service := none } }

/-- `WorkerManager::deploy_staged_service` followed by the
`monoio::spawn(serve(listener, hdr, stop))` performed by its caller:
take the staged service, create a fresh `ServiceManager` (spawning a new
accept loop for the site), and overwrite the deployed slot — dropping the
previous `ServiceManager`, whose loop is thereby stop-signalled. -/
def deploy_staged_service (st : WorkerState S) (name : String) :
    Except WorkerDirectiveError (WorkerState S) :=
  match lookupSite st.sites name with
  | none => .error .siteLookupFailed
  | some sh =>
    match sh.staged_service with
    | none => .error .serviceNotStaged
    | some staged =>
      let newId := st.loops.length
      let loops₁ :=
        match sh.deployed_service with
        | some old => signalStop st.loops old.loopId
        | none => st.loops
      .ok { st with
        sites := updateSite st.sites name fun sh =>
          { sh with
            deployed_service := some { slot := { inner := staged }, loopId := newId }
            staged_service := none }
        loops := loops₁ ++ [({ site := name, status := .running } : LoopInfo)] }

/-- `WorkerManager::remove`: drop the whole site entry; dropping its
`ServiceManager` stop-signals the site's accept loop. -/
def removeSite (st : WorkerState S) (name : String) :
    Except WorkerDirectiveError (WorkerState S) :=
  match lookupSite st.sites name with
  | none => .error .siteLookupFailed
  | some sh =>
    let loops₁ :=
      match sh.deployed_service with
      | some old => signalStop st.loops old.loopId
      | none => st.loops
    .ok { st with sites := eraseSite st.sites name, loops := loops₁ }

/-- `WorkerManager::abort`: require the site; clear its staged slot. -/
def abortSite (st : WorkerState S) (name : String) :
    Except WorkerDirectiveError (WorkerState S) :=
  match lookupSite st.sites name with
  | none => .error .siteLookupFailed
  | some _ =>
    .ok { st with
      sites := updateSite st.sites name fun sh => { sh with staged_service := none } }

/-- Observer: the staged entry of a site. -/
def stagedOf (st : WorkerState S) (name : String) : Option S :=
  (lookupSite st.sites name).bind fun sh => sh.staged_service

/-- `WorkerDirective::execute` (`worker_manager.rs`, lines 436-481): run
one directive against the worker state, returning the next state and the
reply sent back on the result channel. -/
def execute (d : WorkerDirective S SE LErr) (st : WorkerState S) :
    WorkerState S × Except (CommandError SE LErr) Unit :=
  match d with
  | .stageService name factory =>
    match factory (get_svc st name) with
    | .error e => (st, .error (.buildService e))
    | .ok svc => (stage_svc st name svc, .ok ())
  | .updateDeployedWithStaged name =>
    match update_deployed_with_staged st name with
    | .error e => (st, .error (CommandError.fromDirectiveError e))
    | .ok st' => (st', .ok ())
  | .deployNewFromStaged name listenerFactory =>
    match listenerFactory with
    | .error e => (st, .error (.buildListener e))
    | .ok _ =>
      match deploy_staged_service st name with
      | .error e => (st, .error (CommandError.fromDirectiveError e))
      | .ok st' => (st', .ok ())
  | .createAndDeploy name factory listenerFactory =>
    match factory none with
    | .error e => (st, .error (.buildService e))
    | .ok svc =>
      match listenerFactory with
      | .error e => (st, .error (.buildListener e))
      | .ok _ =>
        let st₁ := stage_svc st name svc
        match deploy_staged_service st₁ name with
        | .error e => (st₁, .error (CommandError.fromDirectiveError e))
        | .ok st' => (st', .ok ())
  | .abortStaging name =>
    match abortSite st name with
    | .error e => (st, .error (CommandError.fromDirectiveError e))
    | .ok st' => (st', .ok ())
  | .removeService name =>
    match removeSite st name with
    | .error e => (st, .error (CommandError.fromDirectiveError e))
    | .ok st' => (st', .ok ())

/-! ## Worker transition system

A worker evolves by executing directives from its inbox (strictly in
order) and, interleaved with them, by its running accept loops accepting
connections and spawning connection tasks. -/

/-- A label for one observable step of a worker: either the controller
executes a directive, or the accept loop with the given id accepts a
connection. -/
inductive StepLabel (S SE LErr : Type) where
  | directive (d : WorkerDirective S SE LErr)
  | acceptConn (loopIdx : Nat)

/-- Whether a step label is a `StageService` directive for the given site. -/
def StepLabel.stagesSite : StepLabel S SE LErr → String → Prop
  | .directive (.stageService m _), name => m = name
  | _, _ => False

/-- Whether a step label is a directive that can re-create the site entry
for the given name (`StageService` or `CreateAndDeploy`; all other
directives only look up or drop existing entries). -/
def StepLabel.recreatesSite : StepLabel S SE LErr → String → Prop
  | .directive (.stageService m _), name => m = name
  | .directive (.createAndDeploy m _ _), name => m = name
  | _, _ => False

/-- Structural invariant of a worker, maintained by every step:
the site table has unique keys; every deployed `ServiceManager` holds the
stop receiver of a loop registered for its site; and every *running*
accept loop is owned — through its stop receiver — by the deployed
`ServiceManager` of exactly the site it serves. -/
def WorkerInv (st : WorkerState S) : Prop :=
  (siteKeys st.sites).Nodup ∧
  (∀ name sh mgr, lookupSite st.sites name = some sh →
      sh.deployed_service = some mgr →
      ∃ l, st.loops.get? mgr.loopId = some l ∧ l.site = name) ∧
  (∀ i l, st.loops.get? i = some l → l.status = .running →
      ∃ sh mgr, lookupSite st.sites l.site = some sh ∧
        sh.deployed_service = some mgr ∧ mgr.loopId = i)

/-- The site has no staged entry (either no table entry at all, or an
entry whose staged slot is empty). -/
def stagedClear (st : WorkerState S) (name : String) : Prop :=
  ∀ sh, lookupSite st.sites name = some sh → sh.staged_service = none

/-- The site is quiesced: it has no table entry, and every accept loop
ever spawned for it has been stop-signalled. -/
def SiteQuiesced (st : WorkerState S) (name : String) : Prop :=
  lookupSite st.sites name = none ∧
  ∀ i l, st.loops.get? i = some l → l.site = name → l.status = .stopping

/-- One step of a worker: a directive executed by the controller, or a
*running* accept loop accepting a connection and spawning a connection
task (`serve` in `mod.rs`: a stop-signalled loop breaks out of its loop
instead of accepting). -/
inductive WorkerStep :
    WorkerState S → StepLabel S SE LErr → WorkerState S → Prop where
  | directive (st : WorkerState S) (d : WorkerDirective S SE LErr) :
      WorkerStep st (.directive d) (execute d st).1
  | acceptConn (st : WorkerState S) (i : Nat) (l : LoopInfo)
      (h : st.loops.get? i = some l) (hr : l.status = .running) :
      WorkerStep st (.acceptConn i) { st with conns := st.conns ++ [(i, l.site)] }

/-- A finite run of the worker transition system. -/
inductive WorkerTrace :
    WorkerState S → List (StepLabel S SE LErr) → WorkerState S → Prop where
  | nil (st : WorkerState S) : WorkerTrace st [] st
  | cons {st₁ st₂ st₃ : WorkerState S} {lbl : StepLabel S SE LErr} {lbls} :
      WorkerStep st₁ lbl st₂ → WorkerTrace st₂ lbls st₃ → WorkerTrace st₁ (lbl :: lbls) st₃

/-- A worker state reachable from the fresh `WorkerManager::default()`
state by some sequence of directives and accept-loop steps. -/
def ReachableWorker (SE LErr : Type) (st : WorkerState S) : Prop :=
  ∃ lbls : List (StepLabel S SE LErr), WorkerTrace (initialWorkerState S) lbls st

/-! ## Fleet orchestrator (`worker_fleet_orchestrator.rs`)

`dispatch_directive` iterates over `self.workers`; for each worker it
feeds a clone of the directive into that worker's inbox and, when the
feed succeeds, awaits that worker's reply before moving to the next
worker.  Each worker's channel behavior is modelled by the outcome of the
`feed` and of the `rx.await`. -/

/-- The reply-side payload carried in `Result<(), AnyError>`; worker
errors are abstracted to a numeric code. -/
inductive DispatchErr where
  | fromWorker (code : Nat)
  | sendFailed
  | replyCanceled
deriving DecidableEq

/-- Outcome of `sender.feed(upd).await` for one worker. -/
inductive FeedOutcome where
  | ok
  | err
deriving DecidableEq

deriving instance DecidableEq for Except

/-- Outcome of `rx.await` for one worker: the worker's own reply, or a
canceled reply channel. -/
inductive ReplyOutcome where
  | reply (r : Except Nat Unit)
  | canceled
deriving DecidableEq

/-- The channel behavior of one worker as seen by `dispatch_directive`. -/
structure WorkerChannel where
  feed : FeedOutcome
  rx : ReplyOutcome
deriving DecidableEq

/-- Events performed by `dispatch_directive`, in program order:
`enqueue i` is the `sender.feed` to worker `i`'s inbox, `awaitReply i` is
the `rx.await` of worker `i`'s reply. -/
inductive DispatchEvent where
  | enqueue (i : Nat)
  | awaitReply (i : Nat)
deriving DecidableEq

/-- The per-worker result as `dispatch_directive` computes it: a feed
failure or a canceled reply channel becomes an `Err` entry, otherwise the
worker's own reply is the entry. -/
def workerResult (w : WorkerChannel) : Except DispatchErr Unit :=
  match w.feed with
  | .err => .error .sendFailed
  | .ok =>
    match w.rx with
    | .canceled => .error .replyCanceled
    | .reply (.ok _) => .ok ()
    | .reply (.error e) => .error (.fromWorker e)

/-- The body of `dispatch_directive`'s `for sender in self.workers` loop,
with the worker index threaded through: returns the collected results and
the sequence of channel operations in the order the code performs them. -/
def dispatchLoop : List WorkerChannel → Nat →
    List (Except DispatchErr Unit) × List DispatchEvent
  | [], _ => ([], [])
  | w :: rest, i =>
    let step : Except DispatchErr Unit × List DispatchEvent :=
      match w.feed with
      | .err => (.error .sendFailed, [.enqueue i])
      | .ok =>
        match w.rx with
        | .canceled => (.error .replyCanceled, [.enqueue i, .awaitReply i])
        | .reply (.ok _) => (.ok (), [.enqueue i, .awaitReply i])
        | .reply (.error e) => (.error (.fromWorker e), [.enqueue i, .awaitReply i])
    let tail := dispatchLoop rest (i + 1)
    (step.1 :: tail.1, step.2 ++ tail.2)

/-- `WorkerFleetOrchestrator::dispatch_directive`: run the loop over all
workers starting at index 0. -/
def dispatch_directive (workers : List WorkerChannel) :
    List (Except DispatchErr Unit) × List DispatchEvent :=
  dispatchLoop workers 0

/-- Position of the first occurrence of an event in a dispatch trace
(the trace it is used on lists each event at most once). -/
def evIdx : List DispatchEvent → DispatchEvent → Nat
  | [], _ => 0
  | x :: xs, e => if x = e then 0 else evIdx xs e + 1

/-! ## Lemmas about the site-table primitives -/

theorem lookupSite_updateSite_self (sites : List (String × ServiceDeploymentManager S))
    (name : String) (f : ServiceDeploymentManager S → ServiceDeploymentManager S) :
    lookupSite (updateSite sites name f) name = (lookupSite sites name).map f := by
  induction sites with
  | nil => rfl
  | cons hd tl ih =>
    obtain ⟨k, v⟩ := hd
    by_cases hk : k = name <;> simp [lookupSite, updateSite, hk, ih]

theorem lookupSite_updateSite_ne (sites : List (String × ServiceDeploymentManager S))
    (name m : String) (f : ServiceDeploymentManager S → ServiceDeploymentManager S)
    (h : m ≠ name) :
    lookupSite (updateSite sites name f) m = lookupSite sites m := by
  induction sites with
  | nil => rfl
  | cons hd tl ih =>
    obtain ⟨k, v⟩ := hd
    simp only [updateSite]
    by_cases hk : k = name
    · have hkm : ¬k = m := fun hh => h (hh ▸ hk)
      rw [if_pos hk]
      simp [lookupSite, hkm]
    · rw [if_neg hk]
      by_cases hm : k = m
      · simp [lookupSite, hm]
      · simp [lookupSite, hm, ih]

theorem updateSite_eq_self (sites : List (String × ServiceDeploymentManager S))
    (name : String) (f : ServiceDeploymentManager S → ServiceDeploymentManager S)
    (v : ServiceDeploymentManager S) (hv : lookupSite sites name = some v) (hf : f v = v) :
    updateSite sites name f = sites := by
  induction sites with
  | nil => simp [lookupSite] at hv
  | cons hd tl ih =>
    obtain ⟨k, w⟩ := hd
    by_cases hk : k = name
    · simp [lookupSite, hk] at hv
      subst hv
      simp [updateSite, hk, hf]
    · simp [lookupSite, hk] at hv
      simp [updateSite, hk, ih hv]

theorem updateSite_updateSite (sites : List (String × ServiceDeploymentManager S))
    (name : String) (f g : ServiceDeploymentManager S → ServiceDeploymentManager S) :
    updateSite (updateSite sites name f) name g = updateSite sites name (fun v => g (f v)) := by
  induction sites with
  | nil => rfl
  | cons hd tl ih =>
    obtain ⟨k, v⟩ := hd
    by_cases hk : k = name <;> simp [updateSite, hk, ih]

theorem lookupSite_append (xs ys : List (String × ServiceDeploymentManager S)) (m : String) :
    lookupSite (xs ++ ys) m =
      match lookupSite xs m with
      | some v => some v
      | none => lookupSite ys m := by
  induction xs with
  | nil => simp [lookupSite]
  | cons hd tl ih =>
    obtain ⟨k, v⟩ := hd
    by_cases hk : k = m <;> simp [lookupSite, hk, ih]

theorem lookupSite_eraseSite_ne (sites : List (String × ServiceDeploymentManager S))
    (name m : String) (h : m ≠ name) :
    lookupSite (eraseSite sites name) m = lookupSite sites m := by
  induction sites with
  | nil => rfl
  | cons hd tl ih =>
    obtain ⟨k, v⟩ := hd
    simp only [eraseSite]
    by_cases hk : k = name
    · have hkm : ¬k = m := fun hh => h (hh ▸ hk)
      rw [if_pos hk]
      simp [lookupSite, hkm]
    · rw [if_neg hk]
      by_cases hm : k = m
      · simp [lookupSite, hm]
      · simp [lookupSite, hm, ih]

theorem lookupSite_eq_none_of_not_mem (sites : List (String × ServiceDeploymentManager S))
    (name : String) (h : name ∉ siteKeys sites) : lookupSite sites name = none := by
  induction sites with
  | nil => rfl
  | cons hd tl ih =>
    obtain ⟨k, v⟩ := hd
    simp only [siteKeys, List.map_cons, List.mem_cons, not_or] at h
    simp [lookupSite, Ne.symm h.1, ih h.2]

theorem mem_of_lookupSite_isSome (sites : List (String × ServiceDeploymentManager S))
    (name : String) (h : (lookupSite sites name).isSome) : name ∈ siteKeys sites := by
  induction sites with
  | nil => simp [lookupSite] at h
  | cons hd tl ih =>
    obtain ⟨k, v⟩ := hd
    by_cases hk : k = name
    · simp [siteKeys, hk]
    · simp only [lookupSite, hk, if_false] at h
      simp only [siteKeys, List.map_cons, List.mem_cons]
      exact Or.inr (ih h)

theorem siteKeys_updateSite (sites : List (String × ServiceDeploymentManager S))
    (name : String) (f : ServiceDeploymentManager S → ServiceDeploymentManager S) :
    siteKeys (updateSite sites name f) = siteKeys sites := by
  induction sites with
  | nil => rfl
  | cons hd tl ih =>
    obtain ⟨k, v⟩ := hd
    by_cases hk : k = name
    · simp [updateSite, hk]
    · simp [updateSite, hk, ih]

theorem eraseSite_sublist (sites : List (String × ServiceDeploymentManager S))
    (name : String) : (eraseSite sites name).Sublist sites := by
  induction sites with
  | nil => simp [eraseSite]
  | cons hd tl ih =>
    obtain ⟨k, v⟩ := hd
    by_cases hk : k = name
    · simp only [eraseSite, hk, if_pos]
      exact List.Sublist.cons _ (List.Sublist.refl tl)
    · simp only [eraseSite, hk, if_neg, if_false]
      exact List.Sublist.cons₂ _ ih

theorem lookupSite_eraseSite_self_of_nodup (sites : List (String × ServiceDeploymentManager S))
    (name : String) (h : (siteKeys sites).Nodup) :
    lookupSite (eraseSite sites name) name = none := by
  induction sites with
  | nil => rfl
  | cons hd tl ih =>
    obtain ⟨k, v⟩ := hd
    simp only [siteKeys, List.map_cons, List.nodup_cons] at h
    by_cases hk : k = name
    · simp only [eraseSite, hk, if_pos]
      exact lookupSite_eq_none_of_not_mem tl name (hk ▸ h.1)
    · simp [eraseSite, lookupSite, hk, ih h.2]

theorem nodup_siteKeys_eraseSite (sites : List (String × ServiceDeploymentManager S))
    (name : String) (h : (siteKeys sites).Nodup) :
    (siteKeys (eraseSite sites name)).Nodup :=
  List.Nodup.sublist (List.Sublist.map Prod.fst (eraseSite_sublist sites name)) h

/-! ## Lemmas about `signalStop` -/

theorem length_signalStop (ls : List LoopInfo) (i : Nat) :
    (signalStop ls i).length = ls.length := by
  induction ls generalizing i with
  | nil => rfl
  | cons hd tl ih =>
    cases i with
    | zero => simp [signalStop]
    | succ n => simp [signalStop, ih]

theorem get?_signalStop_self (ls : List LoopInfo) (i : Nat) :
    (signalStop ls i).get? i = (ls.get? i).map fun l => { l with status := .stopping } := by
  induction ls generalizing i with
  | nil => cases i <;> rfl
  | cons hd tl ih =>
    cases i with
    | zero => rfl
    | succ n => simpa [signalStop] using ih n

theorem get?_signalStop_ne (ls : List LoopInfo) (i j : Nat) (h : j ≠ i) :
    (signalStop ls i).get? j = ls.get? j := by
  induction ls generalizing i j with
  | nil => cases i <;> rfl
  | cons hd tl ih =>
    cases i with
    | zero =>
      cases j with
      | zero => exact absurd rfl h
      | succ m => rfl
    | succ n =>
      cases j with
      | zero => rfl
      | succ m => simpa [signalStop] using ih n m (by omega)

/-! ## Lemmas about the `WorkerManager` operations -/

theorem stage_svc_loops (st : WorkerState S) (name : String) (svc : S) :
    (stage_svc st name svc).loops = st.loops := rfl

theorem stage_svc_conns (st : WorkerState S) (name : String) (svc : S) :
    (stage_svc st name svc).conns = st.conns := rfl

theorem lookupSite_stage_svc_self (st : WorkerState S) (name : String) (svc : S) :
    lookupSite (stage_svc st name svc).sites name =
      some { deployed_service := (lookupSite st.sites name).bind (fun sh => sh.deployed_service)
             staged_service := some svc } := by
  unfold stage_svc
  cases h : lookupSite st.sites name with
  | none =>
    simp only [h, Option.isSome_none, Bool.false_eq_true, if_false, Option.none_bind]
    rw [lookupSite_append, h]
    simp [lookupSite]
  | some sh =>
    obtain ⟨d, g⟩ := sh
    simp only [h, Option.isSome_some, if_true, Option.some_bind]
    rw [lookupSite_updateSite_self, h]
    rfl

theorem lookupSite_stage_svc_ne (st : WorkerState S) (name m : String) (svc : S)
    (h : m ≠ name) :
    lookupSite (stage_svc st name svc).sites m = lookupSite st.sites m := by
  unfold stage_svc
  cases hn : lookupSite st.sites name with
  | none =>
    simp only [hn, Option.isSome_none, Bool.false_eq_true, if_false]
    rw [lookupSite_append]
    cases hm : lookupSite st.sites m <;> simp [lookupSite, Ne.symm h]
  | some sh =>
    simp only [hn, Option.isSome_some, if_true]
    exact lookupSite_updateSite_ne st.sites name m _ h

/-! ## Lemmas about the dispatch loop -/

theorem dispatchLoop_results (ws : List WorkerChannel) (i : Nat) :
    (dispatchLoop ws i).1 = ws.map workerResult := by
  induction ws generalizing i with
  | nil => rfl
  | cons w rest ih =>
    cases hf : w.feed with
    | err => simp [dispatchLoop, workerResult, hf, ih]
    | ok =>
      cases hr : w.rx with
      | canceled => simp [dispatchLoop, workerResult, hf, hr, ih]
      | reply r => cases r <;> simp [dispatchLoop, workerResult, hf, hr, ih]

theorem dispatchLoop_trace_ok (w : WorkerChannel) (rest : List WorkerChannel) (i : Nat)
    (hw : w.feed = .ok) :
    (dispatchLoop (w :: rest) i).2 =
      .enqueue i :: .awaitReply i :: (dispatchLoop rest (i + 1)).2 := by
  cases hr : w.rx with
  | canceled => simp [dispatchLoop, hw, hr]
  | reply r => cases r <;> simp [dispatchLoop, hw, hr]

theorem evIdx_dispatchLoop (ws : List WorkerChannel) (hok : ∀ w ∈ ws, w.feed = .ok) :
    ∀ i j, i ≤ j → j < i + ws.length →
      evIdx (dispatchLoop ws i).2 (.enqueue j) = 2 * (j - i) ∧
      evIdx (dispatchLoop ws i).2 (.awaitReply j) = 2 * (j - i) + 1 := by
  induction ws with
  | nil =>
    intro i j h1 h2
    exact absurd h2 (by simp; omega)
  | cons w rest ih =>
    intro i j h1 h2
    have hw : w.feed = .ok := hok w (by simp)
    have hok' : ∀ w' ∈ rest, w'.feed = .ok := fun w' hmem => hok w' (by simp [hmem])
    rw [dispatchLoop_trace_ok w rest i hw]
    by_cases hji : j = i
    · subst hji
      constructor
      · simp [evIdx]
      · simp [evIdx]
    · have hij : i < j := by omega
      have c1 : ¬(DispatchEvent.enqueue i = DispatchEvent.enqueue j) := by simp; omega
      have c2 : ¬(DispatchEvent.awaitReply i = DispatchEvent.enqueue j) := by simp
      have c3 : ¬(DispatchEvent.enqueue i = DispatchEvent.awaitReply j) := by simp
      have c4 : ¬(DispatchEvent.awaitReply i = DispatchEvent.awaitReply j) := by simp; omega
      have hrec := ih hok' (i + 1) j (by omega) (by simp at h2 ⊢; omega)
      have h5 := hrec.1
      have h6 := hrec.2
      constructor
      · simp only [evIdx, if_neg c1, if_neg c2]
        omega
      · simp only [evIdx, if_neg c3, if_neg c4]
        omega

/-! ## Generic list access helpers -/

theorem get?_some_lt (ls : List α) (i : Nat) (x : α) (h : ls.get? i = some x) :
    i < ls.length := by
  induction ls generalizing i with
  | nil => cases i <;> simp [List.get?] at h
  | cons hd tl ih =>
    cases i with
    | zero => simp
    | succ n =>
      simp only [List.get?] at h
      simpa using ih n h

theorem get?_append_lt (xs ys : List α) (i : Nat) (h : i < xs.length) :
    (xs ++ ys).get? i = xs.get? i := by
  induction xs generalizing i with
  | nil => simp at h
  | cons hd tl ih =>
    cases i with
    | zero => rfl
    | succ n =>
      simp only [List.cons_append, List.get?]
      exact ih n (by simpa using h)

theorem get?_append_len (xs : List α) (a : α) : (xs ++ [a]).get? xs.length = some a := by
  induction xs with
  | nil => rfl
  | cons hd tl ih => simp [ih]

theorem signalStop_site (ls : List LoopInfo) (k i : Nat) :
    ((signalStop ls k).get? i).map LoopInfo.site = (ls.get? i).map LoopInfo.site := by
  by_cases hik : i = k
  · subst hik
    rw [get?_signalStop_self]
    cases ls.get? i <;> rfl
  · rw [get?_signalStop_ne ls k i hik]

theorem lookupSite_isSome_of_mem (sites : List (String × ServiceDeploymentManager S))
    (name : String) (h : name ∈ siteKeys sites) : (lookupSite sites name).isSome := by
  induction sites with
  | nil => simp at h
  | cons hd tl ih =>
    obtain ⟨k, v⟩ := hd
    by_cases hk : k = name
    · simp [lookupSite, hk]
    · simp only [siteKeys, List.map_cons, List.mem_cons] at h
      rcases h with h | h
      · exact absurd h.symm hk
      · simp only [lookupSite, hk, if_false]
        exact ih h

/-! ## Inversion of the fallible `WorkerManager` operations -/

theorem update_ok_inversion (st : WorkerState S) (name : String) (st' : WorkerState S)
    (h : update_deployed_with_staged st name = .ok st') :
    ∃ sh hdr staged, lookupSite st.sites name = some sh ∧
      sh.deployed_service = some hdr ∧ sh.staged_service = some staged ∧
      st' = { st with
        sites := updateSite st.sites name fun sh₂ =>
          { sh₂ with
            deployed_service := some { hdr with slot := hdr.slot.update_svc staged }
            staged_service := none } } := by
  unfold update_deployed_with_staged at h
  split at h
  next hl => simp at h
  next sh hl =>
    split at h
    next hd => simp at h
    next hdr hd =>
      split at h
      next hs => simp at h
      next staged hs =>
        simp only [Except.ok.injEq] at h
        exact ⟨sh, hdr, staged, hl, hd, hs, h.symm⟩

theorem deploy_ok_inversion (st : WorkerState S) (name : String) (st' : WorkerState S)
    (h : deploy_staged_service st name = .ok st') :
    ∃ sh staged, lookupSite st.sites name = some sh ∧ sh.staged_service = some staged ∧
      st' = { st with
        sites := updateSite st.sites name fun sh₂ =>
          { sh₂ with
            deployed_service := some { slot := { inner := staged }, loopId := st.loops.length }
            staged_service := none }
        loops := (match sh.deployed_service with
          | some old => signalStop st.loops old.loopId
          | none => st.loops) ++ [({ site := name, status := .running } : LoopInfo)] } := by
  unfold deploy_staged_service at h
  split at h
  next hl => simp at h
  next sh hl =>
    split at h
    next hs => simp at h
    next staged hs =>
      simp only [Except.ok.injEq] at h
      exact ⟨sh, staged, hl, hs, h.symm⟩

theorem remove_ok_inversion (st : WorkerState S) (name : String) (st' : WorkerState S)
    (h : removeSite st name = .ok st') :
    ∃ sh, lookupSite st.sites name = some sh ∧
      st' = { st with
        sites := eraseSite st.sites name
        loops := (match sh.deployed_service with
          | some old => signalStop st.loops old.loopId
          | none => st.loops) } := by
  unfold removeSite at h
  split at h
  next hl => simp at h
  next sh hl =>
    simp only [Except.ok.injEq] at h
    exact ⟨sh, hl, h.symm⟩

theorem abort_ok_inversion (st : WorkerState S) (name : String) (st' : WorkerState S)
    (h : abortSite st name = .ok st') :
    ∃ sh, lookupSite st.sites name = some sh ∧
      st' = { st with
        sites := updateSite st.sites name fun v => { v with staged_service := none } } := by
  unfold abortSite at h
  split at h
  next hl => simp at h
  next sh hl =>
    simp only [Except.ok.injEq] at h
    exact ⟨sh, hl, h.symm⟩

/-! ## Characterizations of the success paths -/

theorem deploy_ok_characterization (st : WorkerState S) (name : String)
    (sh : ServiceDeploymentManager S) (staged : S)
    (hl : lookupSite st.sites name = some sh) (hs : sh.staged_service = some staged) :
    deploy_staged_service st name = .ok
      { st with
        sites := updateSite st.sites name fun sh₂ =>
          { sh₂ with
            deployed_service := some { slot := { inner := staged }, loopId := st.loops.length }
            staged_service := none }
        loops := (match sh.deployed_service with
          | some old => signalStop st.loops old.loopId
          | none => st.loops) ++ [({ site := name, status := .running } : LoopInfo)] } := by
  simp [deploy_staged_service, hl, hs]

theorem update_ok_characterization (st : WorkerState S) (name : String)
    (sh : ServiceDeploymentManager S) (hdr : ServiceManager S) (staged : S)
    (hl : lookupSite st.sites name = some sh) (hd : sh.deployed_service = some hdr)
    (hs : sh.staged_service = some staged) :
    update_deployed_with_staged st name = .ok
      { st with
        sites := updateSite st.sites name fun sh₂ =>
          { sh₂ with
            deployed_service := some { hdr with slot := hdr.slot.update_svc staged }
            staged_service := none } } := by
  simp [update_deployed_with_staged, hl, hd, hs]

theorem deploy_after_stage (st : WorkerState S) (name : String) (svc : S) :
    deploy_staged_service (stage_svc st name svc) name = .ok
      { stage_svc st name svc with
        sites := updateSite (stage_svc st name svc).sites name fun sh₂ =>
          { sh₂ with
            deployed_service := some { slot := { inner := svc }, loopId := st.loops.length }
            staged_service := none }
        loops := (match ((lookupSite st.sites name).bind fun sh => sh.deployed_service) with
          | some old => signalStop st.loops old.loopId
          | none => st.loops) ++ [({ site := name, status := .running } : LoopInfo)] } := by
  have hl := lookupSite_stage_svc_self st name svc
  have h := deploy_ok_characterization (stage_svc st name svc) name _ svc hl rfl
  rw [h]
  rfl

/-! ## Helpers for loop-status reasoning -/

theorem execute_conns (d : WorkerDirective S SE LErr) (st : WorkerState S) :
    ((execute d st).1).conns = st.conns := by
  cases d with
  | stageService name factory =>
    cases hf : factory (get_svc st name) with
    | error e => simp [execute, hf]
    | ok svc => simp [execute, hf, stage_svc_conns]
  | updateDeployedWithStaged name =>
    cases hu : update_deployed_with_staged st name with
    | error e => simp [execute, hu]
    | ok st' =>
      obtain ⟨sh, hdr, staged, _, _, _, rfl⟩ := update_ok_inversion st name st' hu
      simp [execute, hu]
  | deployNewFromStaged name lf =>
    cases lf with
    | error e => simp [execute]
    | ok u =>
      cases hd : deploy_staged_service st name with
      | error e => simp [execute, hd]
      | ok st' =>
        obtain ⟨sh, staged, _, _, rfl⟩ := deploy_ok_inversion st name st' hd
        simp [execute, hd]
  | createAndDeploy name factory lf =>
    cases hf : factory none with
    | error e => simp [execute, hf]
    | ok svc =>
      cases lf with
      | error e => simp [execute, hf]
      | ok u =>
        have hd := deploy_after_stage st name svc
        simp [execute, hf, hd, stage_svc_conns]
  | abortStaging name =>
    cases ha : abortSite st name with
    | error e => simp [execute, ha]
    | ok st' =>
      obtain ⟨sh, _, rfl⟩ := abort_ok_inversion st name st' ha
      simp [execute, ha]
  | removeService name =>
    cases hr : removeSite st name with
    | error e => simp [execute, hr]
    | ok st' =>
      obtain ⟨sh, _, rfl⟩ := remove_ok_inversion st name st' hr
      simp [execute, hr]

theorem quiesced_loops_signalStop (ls : List LoopInfo) (k : Nat) (name : String)
    (h : ∀ i l, ls.get? i = some l → l.site = name → l.status = .stopping) :
    ∀ i l, (signalStop ls k).get? i = some l → l.site = name → l.status = .stopping := by
  intro i l hget hsite
  by_cases hik : i = k
  · subst hik
    rw [get?_signalStop_self] at hget
    obtain ⟨l₀, _, hmap⟩ := Option.map_eq_some'.mp hget
    rw [← hmap]
  · rw [get?_signalStop_ne ls k i hik] at hget
    exact h i l hget hsite

theorem quiesced_loops_append (ls : List LoopInfo) (nl : LoopInfo) (name : String)
    (hnew : nl.site ≠ name)
    (h : ∀ i l, ls.get? i = some l → l.site = name → l.status = .stopping) :
    ∀ i l, (ls ++ [nl]).get? i = some l → l.site = name → l.status = .stopping := by
  intro i l hget hsite
  have hi := get?_some_lt _ _ _ hget
  rw [List.length_append, List.length_singleton] at hi
  rcases Nat.lt_succ_iff_lt_or_eq.mp hi with hlt | heq
  · rw [get?_append_lt _ _ _ hlt] at hget
    exact h i l hget hsite
  · rw [heq, get?_append_len] at hget
    injection hget with hget
    subst hget
    exact absurd hsite hnew

theorem stopped_signalStop (ls : List LoopInfo) (j k : Nat) (l0 : LoopInfo)
    (hget : ls.get? k = some l0) (hstop : l0.status = .stopping) :
    ∃ l', (signalStop ls j).get? k = some l' ∧ l'.status = .stopping ∧ l'.site = l0.site := by
  by_cases hkj : k = j
  · subst hkj
    rw [get?_signalStop_self, hget]
    exact ⟨{ l0 with status := .stopping }, rfl, rfl, rfl⟩
  · rw [get?_signalStop_ne ls j k hkj]
    exact ⟨l0, hget, hstop, rfl⟩

theorem stopped_append (ls : List LoopInfo) (nl : LoopInfo) (k : Nat) (l0 : LoopInfo)
    (hget : ls.get? k = some l0) : (ls ++ [nl]).get? k = some l0 := by
  rw [get?_append_lt _ _ _ (get?_some_lt _ _ _ hget)]
  exact hget

/-! ## Preservation of the worker invariant -/

theorem workerInv_stage_svc (st : WorkerState S) (name : String) (svc : S)
    (h : WorkerInv st) : WorkerInv (stage_svc st name svc) := by
  obtain ⟨h1, h2, h3⟩ := h
  refine ⟨?_, ?_, ?_⟩
  · unfold stage_svc
    cases hl : lookupSite st.sites name with
    | some sh =>
      simp only [hl, Option.isSome_some, if_true]
      rw [siteKeys_updateSite]
      exact h1
    | none =>
      simp only [hl, Option.isSome_none, Bool.false_eq_true, if_false]
      have hnm : name ∉ siteKeys st.sites := by
        intro hmem
        have := lookupSite_isSome_of_mem st.sites name hmem
        rw [hl] at this
        simp at this
      simp only [siteKeys, List.map_append, List.map_cons, List.map_nil]
      rw [List.nodup_append]
      refine ⟨h1, by simp, ?_⟩
      intro a ha hb
      simp at hb
      subst hb
      exact hnm ha
  · intro n' sh' mgr hl' hd'
    rw [stage_svc_loops]
    by_cases hn : n' = name
    · subst hn
      rw [lookupSite_stage_svc_self] at hl'
      injection hl' with hl'
      have hd2 : ((lookupSite st.sites n').bind fun sh => sh.deployed_service) = some mgr := by
        rw [← hl'] at hd'
        exact hd'
      cases hl0 : lookupSite st.sites n' with
      | none => rw [hl0] at hd2; simp at hd2
      | some sh0 =>
        rw [hl0] at hd2
        simp only [Option.some_bind] at hd2
        exact h2 n' sh0 mgr hl0 hd2
    · rw [lookupSite_stage_svc_ne st name n' svc hn] at hl'
      exact h2 n' sh' mgr hl' hd'
  · intro i l hget hrun
    rw [stage_svc_loops] at hget
    obtain ⟨sh0, mgr0, hl0, hd0, hid⟩ := h3 i l hget hrun
    by_cases hn : l.site = name
    · rw [hn] at hl0
      refine ⟨{ deployed_service := (lookupSite st.sites name).bind fun sh =>
          sh.deployed_service, staged_service := some svc }, mgr0, ?_, ?_, hid⟩
      · rw [hn, lookupSite_stage_svc_self]
      · show ((lookupSite st.sites name).bind fun sh => sh.deployed_service) = some mgr0
        rw [hl0]
        simpa using hd0
    · refine ⟨sh0, mgr0, ?_, hd0, hid⟩
      rw [lookupSite_stage_svc_ne st name l.site svc hn]
      exact hl0

theorem workerInv_update (st st' : WorkerState S) (name : String)
    (h : WorkerInv st) (hu : update_deployed_with_staged st name = .ok st') :
    WorkerInv st' := by
  obtain ⟨h1, h2, h3⟩ := h
  obtain ⟨sh, hdr, staged, hl, hd, hs, rfl⟩ := update_ok_inversion st name st' hu
  refine ⟨?_, ?_, ?_⟩
  · show (siteKeys (updateSite st.sites name _)).Nodup
    rw [siteKeys_updateSite]
    exact h1
  · intro n' sh' mgr hl' hd'
    show ∃ l, st.loops.get? mgr.loopId = some l ∧ l.site = n'
    by_cases hn : n' = name
    · subst hn
      rw [show ({ st with sites := updateSite st.sites n' _ } :
          WorkerState S).sites = updateSite st.sites n' _ from rfl,
        lookupSite_updateSite_self, hl] at hl'
      simp only [Option.map_some'] at hl'
      injection hl' with hl'
      rw [← hl'] at hd'
      simp only at hd'
      injection hd' with hd'
      rw [← hd']
      exact h2 n' sh hdr hl hd
    · rw [show ({ st with sites := updateSite st.sites name _ } :
          WorkerState S).sites = updateSite st.sites name _ from rfl,
        lookupSite_updateSite_ne st.sites name n' _ hn] at hl'
      exact h2 n' sh' mgr hl' hd'
  · intro i l hget hrun
    have hget' : st.loops.get? i = some l := hget
    obtain ⟨sh0, mgr0, hl0, hd0, hid⟩ := h3 i l hget' hrun
    by_cases hn : l.site = name
    · rw [hn] at hl0
      rw [hl] at hl0
      injection hl0 with hl0
      rw [← hl0] at hd0
      rw [hd] at hd0
      injection hd0 with hd0
      refine ⟨{ sh with
          deployed_service := some { hdr with slot := hdr.slot.update_svc staged }
          staged_service := none }, { hdr with slot := hdr.slot.update_svc staged },
        ?_, rfl, ?_⟩
      · show lookupSite (updateSite st.sites name _) l.site = _
        rw [hn, lookupSite_updateSite_self, hl]
        rfl
      · show hdr.loopId = i
        rw [← hd0] at hid
        exact hid
    · refine ⟨sh0, mgr0, ?_, hd0, hid⟩
      show lookupSite (updateSite st.sites name _) l.site = some sh0
      rw [lookupSite_updateSite_ne st.sites name l.site _ hn]
      exact hl0

theorem workerInv_abort (st st' : WorkerState S) (name : String)
    (h : WorkerInv st) (ha : abortSite st name = .ok st') : WorkerInv st' := by
  obtain ⟨h1, h2, h3⟩ := h
  obtain ⟨sh, hl, rfl⟩ := abort_ok_inversion st name st' ha
  refine ⟨?_, ?_, ?_⟩
  · show (siteKeys (updateSite st.sites name _)).Nodup
    rw [siteKeys_updateSite]
    exact h1
  · intro n' sh' mgr hl' hd'
    show ∃ l, st.loops.get? mgr.loopId = some l ∧ l.site = n'
    by_cases hn : n' = name
    · subst hn
      rw [show ({ st with sites := updateSite st.sites n' _ } :
          WorkerState S).sites = updateSite st.sites n' _ from rfl,
        lookupSite_updateSite_self, hl] at hl'
      simp only [Option.map_some'] at hl'
      injection hl' with hl'
      rw [← hl'] at hd'
      simp only at hd'
      exact h2 n' sh mgr hl hd'
    · rw [show ({ st with sites := updateSite st.sites name _ } :
          WorkerState S).sites = updateSite st.sites name _ from rfl,
        lookupSite_updateSite_ne st.sites name n' _ hn] at hl'
      exact h2 n' sh' mgr hl' hd'
  · intro i l hget hrun
    have hget' : st.loops.get? i = some l := hget
    obtain ⟨sh0, mgr0, hl0, hd0, hid⟩ := h3 i l hget' hrun
    by_cases hn : l.site = name
    · rw [hn] at hl0
      rw [hl] at hl0
      injection hl0 with hl0
      refine ⟨{ sh with staged_service := none }, mgr0, ?_, ?_, hid⟩
      · show lookupSite (updateSite st.sites name _) l.site = _
        rw [hn, lookupSite_updateSite_self, hl]
        rfl
      · show sh.deployed_service = some mgr0
        rw [hl0]
        exact hd0
    · refine ⟨sh0, mgr0, ?_, hd0, hid⟩
      show lookupSite (updateSite st.sites name _) l.site = some sh0
      rw [lookupSite_updateSite_ne st.sites name l.site _ hn]
      exact hl0

theorem workerInv_deploy (st st' : WorkerState S) (name : String)
    (h : WorkerInv st) (hd : deploy_staged_service st name = .ok st') : WorkerInv st' := by
  obtain ⟨h1, h2, h3⟩ := h
  obtain ⟨sh, staged, hl, hs, rfl⟩ := deploy_ok_inversion st name st' hd
  cases hdep : sh.deployed_service with
  | none =>
    simp only [hdep]
    refine ⟨?_, ?_, ?_⟩
    · show (siteKeys (updateSite st.sites name _)).Nodup
      rw [siteKeys_updateSite]
      exact h1
    · intro n' sh' mgr hl' hd'
      show ∃ l, (st.loops ++ [({ site := name, status := .running } : LoopInfo)]).get? mgr.loopId =
        some l ∧ l.site = n'
      by_cases hn : n' = name
      · subst hn
        have hl2 : lookupSite (updateSite st.sites n' _) n' = some sh' := hl'
        rw [lookupSite_updateSite_self, hl] at hl2
        simp only [Option.map_some'] at hl2
        injection hl2 with hl2
        rw [← hl2] at hd'
        simp only at hd'
        injection hd' with hd'
        rw [← hd']
        exact ⟨{ site := n', status := .running }, get?_append_len st.loops _, rfl⟩
      · have hl2 : lookupSite (updateSite st.sites name _) n' = some sh' := hl'
        rw [lookupSite_updateSite_ne st.sites name n' _ hn] at hl2
        obtain ⟨l, hget, hsite⟩ := h2 n' sh' mgr hl2 hd'
        exact ⟨l, stopped_append st.loops _ mgr.loopId l hget, hsite⟩
    · intro i l hget hrun
      have hget' : (st.loops ++ [({ site := name, status := .running } : LoopInfo)]).get? i =
        some l := hget
      have hi := get?_some_lt _ _ _ hget'
      rw [List.length_append, List.length_singleton] at hi
      rcases Nat.lt_succ_iff_lt_or_eq.mp hi with hlt | heq
      · rw [get?_append_lt _ _ _ hlt] at hget'
        obtain ⟨sh0, mgr0, hl0, hd0, hid⟩ := h3 i l hget' hrun
        by_cases hn : l.site = name
        · rw [hn, hl] at hl0
          injection hl0 with hl0
          rw [← hl0] at hd0
          rw [hdep] at hd0
          simp at hd0
        · refine ⟨sh0, mgr0, ?_, hd0, hid⟩
          show lookupSite (updateSite st.sites name _) l.site = some sh0
          rw [lookupSite_updateSite_ne st.sites name l.site _ hn]
          exact hl0
      · rw [heq, get?_append_len] at hget'
        injection hget' with hget'
        subst hget'
        refine ⟨{ sh with
            deployed_service :=
              some { slot := { inner := staged }, loopId := st.loops.length },
            staged_service := none },
          { slot := { inner := staged }, loopId := st.loops.length }, ?_, rfl, ?_⟩
        · show lookupSite (updateSite st.sites name _) name = _
          rw [lookupSite_updateSite_self, hl]
          rfl
        · show st.loops.length = i
          exact heq.symm
  | some old =>
    simp only [hdep]
    refine ⟨?_, ?_, ?_⟩
    · show (siteKeys (updateSite st.sites name _)).Nodup
      rw [siteKeys_updateSite]
      exact h1
    · intro n' sh' mgr hl' hd'
      show ∃ l, (signalStop st.loops old.loopId ++
          [({ site := name, status := .running } : LoopInfo)]).get? mgr.loopId = some l ∧ l.site = n'
      by_cases hn : n' = name
      · subst hn
        have hl2 : lookupSite (updateSite st.sites n' _) n' = some sh' := hl'
        rw [lookupSite_updateSite_self, hl] at hl2
        simp only [Option.map_some'] at hl2
        injection hl2 with hl2
        rw [← hl2] at hd'
        simp only at hd'
        injection hd' with hd'
        rw [← hd']
        refine ⟨{ site := n', status := .running }, ?_, rfl⟩
        show (signalStop st.loops old.loopId ++ _).get? st.loops.length = _
        rw [show st.loops.length = (signalStop st.loops old.loopId).length from
          (length_signalStop st.loops old.loopId).symm]
        exact get?_append_len _ _
      · have hl2 : lookupSite (updateSite st.sites name _) n' = some sh' := hl'
        rw [lookupSite_updateSite_ne st.sites name n' _ hn] at hl2
        obtain ⟨l, hget, hsite⟩ := h2 n' sh' mgr hl2 hd'
        have hlt : mgr.loopId < (signalStop st.loops old.loopId).length := by
          rw [length_signalStop]
          exact get?_some_lt _ _ _ hget
        rw [get?_append_lt _ _ _ hlt]
        have hmap := signalStop_site st.loops old.loopId mgr.loopId
        rw [hget] at hmap
        simp only [Option.map_some'] at hmap
        obtain ⟨l', hgl', hsl'⟩ := Option.map_eq_some'.mp hmap
        exact ⟨l', hgl', by rw [hsl', hsite]⟩
    · intro i l hget hrun
      have hget' : (signalStop st.loops old.loopId ++
          [({ site := name, status := .running } : LoopInfo)]).get? i = some l := hget
      have hi := get?_some_lt _ _ _ hget'
      rw [List.length_append, List.length_singleton, length_signalStop] at hi
      rcases Nat.lt_succ_iff_lt_or_eq.mp hi with hlt | heq
      · rw [get?_append_lt _ _ _ (by rw [length_signalStop]; exact hlt)] at hget'
        by_cases hio : i = old.loopId
        · subst hio
          rw [get?_signalStop_self] at hget'
          obtain ⟨l₀, _, hmap⟩ := Option.map_eq_some'.mp hget'
          rw [← hmap] at hrun
          simp at hrun
        · rw [get?_signalStop_ne _ _ _ hio] at hget'
          obtain ⟨sh0, mgr0, hl0, hd0, hid⟩ := h3 i l hget' hrun
          by_cases hn : l.site = name
          · rw [hn, hl] at hl0
            injection hl0 with hl0
            rw [← hl0] at hd0
            rw [hdep] at hd0
            injection hd0 with hd0
            rw [← hd0] at hid
            exact absurd hid.symm hio
          · refine ⟨sh0, mgr0, ?_, hd0, hid⟩
            show lookupSite (updateSite st.sites name _) l.site = some sh0
            rw [lookupSite_updateSite_ne st.sites name l.site _ hn]
            exact hl0
      · rw [heq,
          show st.loops.length = (signalStop st.loops old.loopId).length from
            (length_signalStop st.loops old.loopId).symm,
          get?_append_len] at hget'
        injection hget' with hget'
        subst hget'
        refine ⟨{ sh with
            deployed_service :=
              some { slot := { inner := staged }, loopId := st.loops.length },
            staged_service := none },
          { slot := { inner := staged }, loopId := st.loops.length }, ?_, rfl, ?_⟩
        · show lookupSite (updateSite st.sites name _) name = _
          rw [lookupSite_updateSite_self, hl]
          rfl
        · show st.loops.length = i
          exact heq.symm

theorem workerInv_remove (st st' : WorkerState S) (name : String)
    (h : WorkerInv st) (hr : removeSite st name = .ok st') : WorkerInv st' := by
  obtain ⟨h1, h2, h3⟩ := h
  obtain ⟨sh, hl, rfl⟩ := remove_ok_inversion st name st' hr
  cases hdep : sh.deployed_service with
  | none =>
    simp only [hdep]
    refine ⟨?_, ?_, ?_⟩
    · show (siteKeys (eraseSite st.sites name)).Nodup
      exact nodup_siteKeys_eraseSite st.sites name h1
    · intro n' sh' mgr hl' hd'
      show ∃ l, st.loops.get? mgr.loopId = some l ∧ l.site = n'
      have hl2 : lookupSite (eraseSite st.sites name) n' = some sh' := hl'
      by_cases hn : n' = name
      · subst hn
        rw [lookupSite_eraseSite_self_of_nodup st.sites n' h1] at hl2
        simp at hl2
      · rw [lookupSite_eraseSite_ne st.sites name n' hn] at hl2
        exact h2 n' sh' mgr hl2 hd'
    · intro i l hget hrun
      have hget' : st.loops.get? i = some l := hget
      obtain ⟨sh0, mgr0, hl0, hd0, hid⟩ := h3 i l hget' hrun
      by_cases hn : l.site = name
      · rw [hn, hl] at hl0
        injection hl0 with hl0
        rw [← hl0] at hd0
        rw [hdep] at hd0
        simp at hd0
      · refine ⟨sh0, mgr0, ?_, hd0, hid⟩
        show lookupSite (eraseSite st.sites name) l.site = some sh0
        rw [lookupSite_eraseSite_ne st.sites name l.site hn]
        exact hl0
  | some old =>
    simp only [hdep]
    refine ⟨?_, ?_, ?_⟩
    · show (siteKeys (eraseSite st.sites name)).Nodup
      exact nodup_siteKeys_eraseSite st.sites name h1
    · intro n' sh' mgr hl' hd'
      show ∃ l, (signalStop st.loops old.loopId).get? mgr.loopId = some l ∧ l.site = n'
      have hl2 : lookupSite (eraseSite st.sites name) n' = some sh' := hl'
      by_cases hn : n' = name
      · subst hn
        rw [lookupSite_eraseSite_self_of_nodup st.sites n' h1] at hl2
        simp at hl2
      · rw [lookupSite_eraseSite_ne st.sites name n' hn] at hl2
        obtain ⟨l, hget, hsite⟩ := h2 n' sh' mgr hl2 hd'
        have hmap := signalStop_site st.loops old.loopId mgr.loopId
        rw [hget] at hmap
        simp only [Option.map_some'] at hmap
        obtain ⟨l', hgl', hsl'⟩ := Option.map_eq_some'.mp hmap
        exact ⟨l', hgl', by rw [hsl', hsite]⟩
    · intro i l hget hrun
      have hget' : (signalStop st.loops old.loopId).get? i = some l := hget
      by_cases hio : i = old.loopId
      · subst hio
        rw [get?_signalStop_self] at hget'
        obtain ⟨l₀, _, hmap⟩ := Option.map_eq_some'.mp hget'
        rw [← hmap] at hrun
        simp at hrun
      · rw [get?_signalStop_ne _ _ _ hio] at hget'
        obtain ⟨sh0, mgr0, hl0, hd0, hid⟩ := h3 i l hget' hrun
        by_cases hn : l.site = name
        · rw [hn, hl] at hl0
          injection hl0 with hl0
          rw [← hl0] at hd0
          rw [hdep] at hd0
          injection hd0 with hd0
          rw [← hd0] at hid
          exact absurd hid.symm hio
        · refine ⟨sh0, mgr0, ?_, hd0, hid⟩
          show lookupSite (eraseSite st.sites name) l.site = some sh0
          rw [lookupSite_eraseSite_ne st.sites name l.site hn]
          exact hl0

theorem workerInv_execute (d : WorkerDirective S SE LErr) (st : WorkerState S)
    (h : WorkerInv st) : WorkerInv (execute d st).1 := by
  cases d with
  | stageService name factory =>
    cases hf : factory (get_svc st name) with
    | error e => simpa [execute, hf] using h
    | ok svc => simpa [execute, hf] using workerInv_stage_svc st name svc h
  | updateDeployedWithStaged name =>
    cases hu : update_deployed_with_staged st name with
    | error e => simpa [execute, hu] using h
    | ok st' => simpa [execute, hu] using workerInv_update st st' name h hu
  | deployNewFromStaged name lf =>
    cases lf with
    | error e => simpa [execute] using h
    | ok u =>
      cases hd : deploy_staged_service st name with
      | error e => simpa [execute, hd] using h
      | ok st' => simpa [execute, hd] using workerInv_deploy st st' name h hd
  | createAndDeploy name factory lf =>
    cases hf : factory none with
    | error e => simpa [execute, hf] using h
    | ok svc =>
      cases lf with
      | error e => simpa [execute, hf] using h
      | ok u =>
        have h₁ := workerInv_stage_svc st name svc h
        have hd := deploy_after_stage st name svc
        simpa [execute, hf, hd] using
          workerInv_deploy (stage_svc st name svc) _ name h₁ hd
  | abortStaging name =>
    cases ha : abortSite st name with
    | error e => simpa [execute, ha] using h
    | ok st' => simpa [execute, ha] using workerInv_abort st st' name h ha
  | removeService name =>
    cases hr : removeSite st name with
    | error e => simpa [execute, hr] using h
    | ok st' => simpa [execute, hr] using workerInv_remove st st' name h hr

theorem workerInv_step (st st₂ : WorkerState S) (lbl : StepLabel S SE LErr)
    (hstep : WorkerStep st lbl st₂) (h : WorkerInv st) : WorkerInv st₂ := by
  cases hstep with
  | directive st d => exact workerInv_execute d st h
  | acceptConn st i l hget hrun => exact h

theorem workerInv_trace (st st₂ : WorkerState S) (lbls : List (StepLabel S SE LErr))
    (htr : WorkerTrace st lbls st₂) (h : WorkerInv st) : WorkerInv st₂ := by
  induction htr with
  | nil st => exact h
  | cons hstep htl ih => exact ih (workerInv_step _ _ _ hstep h)

theorem workerInv_initial (S : Type) : WorkerInv (initialWorkerState S) := by
  refine ⟨by simp [initialWorkerState], ?_, ?_⟩
  · intro name sh mgr hl
    simp [initialWorkerState, lookupSite] at hl
  · intro i l hget
    simp [initialWorkerState] at hget

theorem workerInv_reachable (st : WorkerState S) (SE LErr : Type)
    (h : ReachableWorker SE LErr st) : WorkerInv st := by
  obtain ⟨lbls, htr⟩ := h
  exact workerInv_trace _ _ lbls htr (workerInv_initial S)

/-! ## Site quiescence after removal -/

theorem quiesced_stage (st : WorkerState S) (m name : String) (svc : S)
    (hm : m ≠ name) (hq : SiteQuiesced st name) : SiteQuiesced (stage_svc st m svc) name := by
  refine ⟨?_, ?_⟩
  · rw [lookupSite_stage_svc_ne st m name svc (Ne.symm hm)]
    exact hq.1
  · intro i l hget hsite
    rw [stage_svc_loops] at hget
    exact hq.2 i l hget hsite

theorem quiesced_update (st st' : WorkerState S) (m name : String)
    (hq : SiteQuiesced st name) (hu : update_deployed_with_staged st m = .ok st') :
    SiteQuiesced st' name := by
  obtain ⟨sh, hdr, staged, hl, hd, hs, rfl⟩ := update_ok_inversion st m st' hu
  have hm : m ≠ name := by
    intro hh
    rw [hh, hq.1] at hl
    exact Option.noConfusion hl
  refine ⟨?_, ?_⟩
  · show lookupSite (updateSite st.sites m _) name = none
    rw [lookupSite_updateSite_ne st.sites m name _ (Ne.symm hm)]
    exact hq.1
  · intro i l hget hsite
    exact hq.2 i l hget hsite

theorem quiesced_deploy (st st' : WorkerState S) (m name : String)
    (hq : SiteQuiesced st name) (hd : deploy_staged_service st m = .ok st') :
    SiteQuiesced st' name := by
  obtain ⟨sh, staged, hl, hs, rfl⟩ := deploy_ok_inversion st m st' hd
  have hm : m ≠ name := by
    intro hh
    rw [hh, hq.1] at hl
    exact Option.noConfusion hl
  refine ⟨?_, ?_⟩
  · show lookupSite (updateSite st.sites m _) name = none
    rw [lookupSite_updateSite_ne st.sites m name _ (Ne.symm hm)]
    exact hq.1
  · cases hdep : sh.deployed_service with
    | none =>
      intro i l hget hsite
      simp only [hdep] at hget
      exact quiesced_loops_append st.loops _ name hm hq.2 i l hget hsite
    | some old =>
      intro i l hget hsite
      simp only [hdep] at hget
      exact quiesced_loops_append _ _ name hm
        (quiesced_loops_signalStop st.loops old.loopId name hq.2) i l hget hsite

theorem quiesced_abort (st st' : WorkerState S) (m name : String)
    (hq : SiteQuiesced st name) (ha : abortSite st m = .ok st') :
    SiteQuiesced st' name := by
  obtain ⟨sh, hl, rfl⟩ := abort_ok_inversion st m st' ha
  have hm : m ≠ name := by
    intro hh
    rw [hh, hq.1] at hl
    exact Option.noConfusion hl
  refine ⟨?_, ?_⟩
  · show lookupSite (updateSite st.sites m _) name = none
    rw [lookupSite_updateSite_ne st.sites m name _ (Ne.symm hm)]
    exact hq.1
  · intro i l hget hsite
    exact hq.2 i l hget hsite

theorem quiesced_remove (st st' : WorkerState S) (m name : String)
    (hq : SiteQuiesced st name) (hr : removeSite st m = .ok st') :
    SiteQuiesced st' name := by
  obtain ⟨sh, hl, rfl⟩ := remove_ok_inversion st m st' hr
  have hm : m ≠ name := by
    intro hh
    rw [hh, hq.1] at hl
    exact Option.noConfusion hl
  refine ⟨?_, ?_⟩
  · show lookupSite (eraseSite st.sites m) name = none
    rw [lookupSite_eraseSite_ne st.sites m name (Ne.symm hm)]
    exact hq.1
  · cases hdep : sh.deployed_service with
    | none =>
      intro i l hget hsite
      simp only [hdep] at hget
      exact hq.2 i l hget hsite
    | some old =>
      intro i l hget hsite
      simp only [hdep] at hget
      exact quiesced_loops_signalStop st.loops old.loopId name hq.2 i l hget hsite

theorem quiesced_execute (st : WorkerState S) (name : String)
    (d : WorkerDirective S SE LErr) (hq : SiteQuiesced st name)
    (hnr : ¬ (StepLabel.directive d : StepLabel S SE LErr).recreatesSite name) :
    SiteQuiesced (execute d st).1 name := by
  cases d with
  | stageService m factory =>
    have hm : m ≠ name := fun hh => hnr (by simp [StepLabel.recreatesSite, hh])
    cases hf : factory (get_svc st m) with
    | error e => simpa [execute, hf] using hq
    | ok svc => simpa [execute, hf] using quiesced_stage st m name svc hm hq
  | updateDeployedWithStaged m =>
    cases hu : update_deployed_with_staged st m with
    | error e => simpa [execute, hu] using hq
    | ok st' => simpa [execute, hu] using quiesced_update st st' m name hq hu
  | deployNewFromStaged m lf =>
    cases lf with
    | error e => simpa [execute] using hq
    | ok u =>
      cases hd : deploy_staged_service st m with
      | error e => simpa [execute, hd] using hq
      | ok st' => simpa [execute, hd] using quiesced_deploy st st' m name hq hd
  | createAndDeploy m factory lf =>
    have hm : m ≠ name := fun hh => hnr (by simp [StepLabel.recreatesSite, hh])
    cases hf : factory none with
    | error e => simpa [execute, hf] using hq
    | ok svc =>
      cases lf with
      | error e => simpa [execute, hf] using hq
      | ok u =>
        have hq₁ := quiesced_stage st m name svc hm hq
        have hd := deploy_after_stage st m svc
        simpa [execute, hf, hd] using
          quiesced_deploy (stage_svc st m svc) _ m name hq₁ hd
  | abortStaging m =>
    cases ha : abortSite st m with
    | error e => simpa [execute, ha] using hq
    | ok st' => simpa [execute, ha] using quiesced_abort st st' m name hq ha
  | removeService m =>
    cases hr : removeSite st m with
    | error e => simpa [execute, hr] using hq
    | ok st' => simpa [execute, hr] using quiesced_remove st st' m name hq hr

theorem quiesced_step (st st₂ : WorkerState S) (name : String)
    (lbl : StepLabel S SE LErr) (hstep : WorkerStep st lbl st₂)
    (hq : SiteQuiesced st name) (hnr : ¬ lbl.recreatesSite name) :
    SiteQuiesced st₂ name ∧
      st₂.conns.filter (fun c => c.2 == name) =
        st.conns.filter (fun c => c.2 == name) := by
  cases hstep with
  | directive st d =>
    exact ⟨quiesced_execute st name d hq hnr, by rw [execute_conns]⟩
  | acceptConn st i l hget hrun =>
    have hne : l.site ≠ name := by
      intro hh
      have hstop := hq.2 i l hget hh
      rw [hstop] at hrun
      exact LoopStatus.noConfusion hrun
    refine ⟨⟨hq.1, fun i' l' hg hsx => hq.2 i' l' hg hsx⟩, ?_⟩
    show (st.conns ++ [(i, l.site)]).filter _ = st.conns.filter _
    rw [List.filter_append]
    simp [hne]

theorem quiesced_trace (st st₂ : WorkerState S) (name : String)
    (lbls : List (StepLabel S SE LErr)) (htr : WorkerTrace st lbls st₂)
    (hq : SiteQuiesced st name) (hnr : ∀ l ∈ lbls, ¬ l.recreatesSite name) :
    SiteQuiesced st₂ name ∧
      st₂.conns.filter (fun c => c.2 == name) =
        st.conns.filter (fun c => c.2 == name) := by
  revert hq hnr
  induction htr with
  | nil st => exact fun hq _ => ⟨hq, rfl⟩
  | cons hstep htl ih =>
    intro hq hnr
    obtain ⟨hq₂, hconns⟩ := quiesced_step _ _ name _ hstep hq (hnr _ (by simp))
    obtain ⟨hq₃, hconns₂⟩ := ih hq₂ (fun l hl => hnr l (by simp [hl]))
    exact ⟨hq₃, by rw [hconns₂, hconns]⟩

/-! ## Staged-slot clearance without a staging directive -/

theorem stagedClear_execute (st : WorkerState S) (name : String)
    (d : WorkerDirective S SE LErr) (hinv : WorkerInv st) (hc : stagedClear st name)
    (hns : ¬ (StepLabel.directive d : StepLabel S SE LErr).stagesSite name) :
    stagedClear (execute d st).1 name := by
  cases d with
  | stageService m factory =>
    have hm : m ≠ name := fun hh => hns (by simp [StepLabel.stagesSite, hh])
    cases hf : factory (get_svc st m) with
    | error e => simpa [execute, hf] using hc
    | ok svc =>
      have hst : (execute (.stageService m factory : WorkerDirective S SE LErr) st).1 =
          stage_svc st m svc := by simp [execute, hf]
      rw [hst]
      intro sh hl
      rw [lookupSite_stage_svc_ne st m name svc (Ne.symm hm)] at hl
      exact hc sh hl
  | updateDeployedWithStaged m =>
    cases hu : update_deployed_with_staged st m with
    | error e => simpa [execute, hu] using hc
    | ok st' =>
      obtain ⟨sh, hdr, staged, hl, hd, hs, rfl⟩ := update_ok_inversion st m st' hu
      have hst : (execute (.updateDeployedWithStaged m : WorkerDirective S SE LErr) st).1 =
          { st with sites := updateSite st.sites m fun sh₂ =>
            { sh₂ with
              deployed_service := some { hdr with slot := hdr.slot.update_svc staged }
              staged_service := none } } := by simp [execute, hu]
      rw [hst]
      intro sh' hl'
      by_cases hm : m = name
      · subst hm
        have hl2 : lookupSite (updateSite st.sites m _) m = some sh' := hl'
        rw [lookupSite_updateSite_self, hl] at hl2
        simp only [Option.map_some'] at hl2
        injection hl2 with hl2
        rw [← hl2]
      · have hl2 : lookupSite (updateSite st.sites m _) name = some sh' := hl'
        rw [lookupSite_updateSite_ne st.sites m name _ (Ne.symm hm)] at hl2
        exact hc sh' hl2
  | deployNewFromStaged m lf =>
    cases lf with
    | error e => simpa [execute] using hc
    | ok u =>
      cases hd : deploy_staged_service st m with
      | error e => simpa [execute, hd] using hc
      | ok st' =>
        obtain ⟨sh, staged, hl, hs, rfl⟩ := deploy_ok_inversion st m st' hd
        have hst : (execute (.deployNewFromStaged m (.ok u) :
            WorkerDirective S SE LErr) st).1 =
            { st with
              sites := updateSite st.sites m fun sh₂ =>
                { sh₂ with
                  deployed_service :=
                    some { slot := { inner := staged }, loopId := st.loops.length },
                  staged_service := none }
              loops := (match sh.deployed_service with
                | some old => signalStop st.loops old.loopId
                | none => st.loops) ++
                  [({ site := m, status := .running } : LoopInfo)] } := by
          simp [execute, hd]
        rw [hst]
        intro sh' hl'
        by_cases hm : m = name
        · subst hm
          have hl2 : lookupSite (updateSite st.sites m _) m = some sh' := hl'
          rw [lookupSite_updateSite_self, hl] at hl2
          simp only [Option.map_some'] at hl2
          injection hl2 with hl2
          rw [← hl2]
        · have hl2 : lookupSite (updateSite st.sites m _) name = some sh' := hl'
          rw [lookupSite_updateSite_ne st.sites m name _ (Ne.symm hm)] at hl2
          exact hc sh' hl2
  | createAndDeploy m factory lf =>
    cases hf : factory none with
    | error e => simpa [execute, hf] using hc
    | ok svc =>
      cases lf with
      | error e => simpa [execute, hf] using hc
      | ok u =>
        have hd := deploy_after_stage st m svc
        have hst : (execute (.createAndDeploy m factory (.ok u) :
            WorkerDirective S SE LErr) st).1 =
            { stage_svc st m svc with
              sites := updateSite (stage_svc st m svc).sites m fun sh₂ =>
                { sh₂ with
                  deployed_service :=
                    some { slot := { inner := svc }, loopId := st.loops.length },
                  staged_service := none }
              loops := (match ((lookupSite st.sites m).bind fun sh =>
                  sh.deployed_service) with
                | some old => signalStop st.loops old.loopId
                | none => st.loops) ++
                  [({ site := m, status := .running } : LoopInfo)] } := by
          simp [execute, hf, hd]
        rw [hst]
        intro sh' hl'
        by_cases hm : m = name
        · subst hm
          have hl2 : lookupSite (updateSite (stage_svc st m svc).sites m _) m =
            some sh' := hl'
          rw [lookupSite_updateSite_self, lookupSite_stage_svc_self] at hl2
          simp only [Option.map_some'] at hl2
          injection hl2 with hl2
          rw [← hl2]
        · have hl2 : lookupSite (updateSite (stage_svc st m svc).sites m _) name =
            some sh' := hl'
          rw [lookupSite_updateSite_ne _ m name _ (Ne.symm hm),
            lookupSite_stage_svc_ne st m name svc (Ne.symm hm)] at hl2
          exact hc sh' hl2
  | abortStaging m =>
    cases ha : abortSite st m with
    | error e => simpa [execute, ha] using hc
    | ok st' =>
      obtain ⟨sh, hl, rfl⟩ := abort_ok_inversion st m st' ha
      have hst : (execute (.abortStaging m : WorkerDirective S SE LErr) st).1 =
          { st with sites := updateSite st.sites m fun v =>
            { v with staged_service := none } } := by simp [execute, ha]
      rw [hst]
      intro sh' hl'
      by_cases hm : m = name
      · subst hm
        have hl2 : lookupSite (updateSite st.sites m _) m = some sh' := hl'
        rw [lookupSite_updateSite_self, hl] at hl2
        simp only [Option.map_some'] at hl2
        injection hl2 with hl2
        rw [← hl2]
      · have hl2 : lookupSite (updateSite st.sites m _) name = some sh' := hl'
        rw [lookupSite_updateSite_ne st.sites m name _ (Ne.symm hm)] at hl2
        exact hc sh' hl2
  | removeService m =>
    cases hr : removeSite st m with
    | error e => simpa [execute, hr] using hc
    | ok st' =>
      obtain ⟨sh, hl, rfl⟩ := remove_ok_inversion st m st' hr
      have hst : (execute (.removeService m : WorkerDirective S SE LErr) st).1 =
          { st with
            sites := eraseSite st.sites m
            loops := (match sh.deployed_service with
              | some old => signalStop st.loops old.loopId
              | none => st.loops) } := by simp [execute, hr]
      rw [hst]
      intro sh' hl'
      by_cases hm : m = name
      · subst hm
        have hl2 : lookupSite (eraseSite st.sites m) m = some sh' := hl'
        rw [lookupSite_eraseSite_self_of_nodup st.sites m hinv.1] at hl2
        exact Option.noConfusion hl2
      · have hl2 : lookupSite (eraseSite st.sites m) name = some sh' := hl'
        rw [lookupSite_eraseSite_ne st.sites m name (Ne.symm hm)] at hl2
        exact hc sh' hl2

theorem stagedClear_trace (st st₂ : WorkerState S) (name : String)
    (lbls : List (StepLabel S SE LErr)) (htr : WorkerTrace st lbls st₂)
    (hinv : WorkerInv st) (hc : stagedClear st name)
    (hns : ∀ l ∈ lbls, ¬ l.stagesSite name) : stagedClear st₂ name := by
  revert hinv hc hns
  induction htr with
  | nil st => exact fun _ hc _ => hc
  | cons hstep htl ih =>
    intro hinv hc hns
    refine ih (workerInv_step _ _ _ hstep hinv) ?_ (fun l hl => hns l (by simp [hl]))
    cases hstep with
    | directive stx d => exact stagedClear_execute _ name d hinv hc (hns _ (by simp))
    | acceptConn stx i l hget hrun => exact hc

theorem update_fails_of_stagedClear (st : WorkerState S) (name : String)
    (hc : stagedClear st name) :
    (execute (.updateDeployedWithStaged name : WorkerDirective S SE LErr) st).2 ≠
      .ok () := by
  intro h
  cases hu : update_deployed_with_staged st name with
  | error e => simp [execute, hu] at h
  | ok st' =>
    obtain ⟨sh, hdr, staged, hl, hd, hs, _⟩ := update_ok_inversion st name st' hu
    have := hc sh hl
    rw [hs] at this
    exact Option.noConfusion this

/-! ## A stop-signalled loop stays signalled and spawns nothing -/

theorem stopped_loop_execute (d : WorkerDirective S SE LErr) (st : WorkerState S)
    (k : Nat) (l0 : LoopInfo) (hget : st.loops.get? k = some l0)
    (hstop : l0.status = .stopping) :
    ∃ l', ((execute d st).1).loops.get? k = some l' ∧
      l'.status = .stopping ∧ l'.site = l0.site := by
  cases d with
  | stageService name factory =>
    cases hf : factory (get_svc st name) with
    | error e => exact ⟨l0, by simpa [execute, hf] using hget, hstop, rfl⟩
    | ok svc => exact ⟨l0, by simpa [execute, hf, stage_svc_loops] using hget, hstop, rfl⟩
  | updateDeployedWithStaged name =>
    cases hu : update_deployed_with_staged st name with
    | error e => exact ⟨l0, by simpa [execute, hu] using hget, hstop, rfl⟩
    | ok st' =>
      obtain ⟨sh, hdr, staged, hl, hd, hs, rfl⟩ := update_ok_inversion st name st' hu
      exact ⟨l0, by simpa [execute, hu] using hget, hstop, rfl⟩
  | deployNewFromStaged name lf =>
    cases lf with
    | error e => exact ⟨l0, by simpa [execute] using hget, hstop, rfl⟩
    | ok u =>
      cases hd : deploy_staged_service st name with
      | error e => exact ⟨l0, by simpa [execute, hd] using hget, hstop, rfl⟩
      | ok st' =>
        obtain ⟨sh, staged, hl, hs, rfl⟩ := deploy_ok_inversion st name st' hd
        cases hdep : sh.deployed_service with
        | none =>
          refine ⟨l0, ?_, hstop, rfl⟩
          have : ((execute (.deployNewFromStaged name (.ok u) :
              WorkerDirective S SE LErr) st).1).loops =
              st.loops ++ [({ site := name, status := .running } : LoopInfo)] := by
            simp [execute, hd, hdep]
          rw [this]
          exact stopped_append st.loops _ k l0 hget
        | some old =>
          obtain ⟨l', hg', hs', hsite'⟩ :=
            stopped_signalStop st.loops old.loopId k l0 hget hstop
          refine ⟨l', ?_, hs', hsite'⟩
          have : ((execute (.deployNewFromStaged name (.ok u) :
              WorkerDirective S SE LErr) st).1).loops =
              signalStop st.loops old.loopId ++
                [({ site := name, status := .running } : LoopInfo)] := by
            simp [execute, hd, hdep]
          rw [this]
          exact stopped_append _ _ k l' hg'
  | createAndDeploy name factory lf =>
    cases hf : factory none with
    | error e => exact ⟨l0, by simpa [execute, hf] using hget, hstop, rfl⟩
    | ok svc =>
      cases lf with
      | error e => exact ⟨l0, by simpa [execute, hf] using hget, hstop, rfl⟩
      | ok u =>
        have hd := deploy_after_stage st name svc
        cases hdep : ((lookupSite st.sites name).bind fun sh => sh.deployed_service) with
        | none =>
          refine ⟨l0, ?_, hstop, rfl⟩
          have : ((execute (.createAndDeploy name factory (.ok u) :
              WorkerDirective S SE LErr) st).1).loops =
              st.loops ++ [({ site := name, status := .running } : LoopInfo)] := by
            simp [execute, hf, hd, hdep]
          rw [this]
          exact stopped_append st.loops _ k l0 hget
        | some old =>
          obtain ⟨l', hg', hs', hsite'⟩ :=
            stopped_signalStop st.loops old.loopId k l0 hget hstop
          refine ⟨l', ?_, hs', hsite'⟩
          have : ((execute (.createAndDeploy name factory (.ok u) :
              WorkerDirective S SE LErr) st).1).loops =
              signalStop st.loops old.loopId ++
                [({ site := name, status := .running } : LoopInfo)] := by
            simp [execute, hf, hd, hdep]
          rw [this]
          exact stopped_append _ _ k l' hg'
  | abortStaging name =>
    cases ha : abortSite st name with
    | error e => exact ⟨l0, by simpa [execute, ha] using hget, hstop, rfl⟩
    | ok st' =>
      obtain ⟨sh, hl, rfl⟩ := abort_ok_inversion st name st' ha
      exact ⟨l0, by simpa [execute, ha] using hget, hstop, rfl⟩
  | removeService name =>
    cases hr : removeSite st name with
    | error e => exact ⟨l0, by simpa [execute, hr] using hget, hstop, rfl⟩
    | ok st' =>
      obtain ⟨sh, hl, rfl⟩ := remove_ok_inversion st name st' hr
      cases hdep : sh.deployed_service with
      | none =>
        refine ⟨l0, ?_, hstop, rfl⟩
        have : ((execute (.removeService name :
            WorkerDirective S SE LErr) st).1).loops = st.loops := by
          simp [execute, hr, hdep]
        rw [this]
        exact hget
      | some old =>
        obtain ⟨l', hg', hs', hsite'⟩ :=
          stopped_signalStop st.loops old.loopId k l0 hget hstop
        refine ⟨l', ?_, hs', hsite'⟩
        have : ((execute (.removeService name :
            WorkerDirective S SE LErr) st).1).loops =
            signalStop st.loops old.loopId := by
          simp [execute, hr, hdep]
        rw [this]
        exact hg'

theorem stopped_loop_step (st st₂ : WorkerState S) (lbl : StepLabel S SE LErr)
    (hstep : WorkerStep st lbl st₂) (k : Nat) (l0 : LoopInfo)
    (hget : st.loops.get? k = some l0) (hstop : l0.status = .stopping) :
    (∃ l', st₂.loops.get? k = some l' ∧ l'.status = .stopping ∧ l'.site = l0.site) ∧
      st₂.conns.filter (fun c => c.1 == k) = st.conns.filter (fun c => c.1 == k) := by
  cases hstep with
  | directive st d =>
    exact ⟨stopped_loop_execute d st k l0 hget hstop, by rw [execute_conns]⟩
  | acceptConn st i l hgl hrun =>
    have hik : i ≠ k := by
      intro hh
      subst hh
      rw [hgl] at hget
      injection hget with hget
      rw [← hget] at hstop
      rw [hstop] at hrun
      exact LoopStatus.noConfusion hrun
    refine ⟨⟨l0, hget, hstop, rfl⟩, ?_⟩
    show (st.conns ++ [(i, l.site)]).filter _ = st.conns.filter _
    rw [List.filter_append]
    simp [hik]

theorem stopped_loop_trace (st st₂ : WorkerState S)
    (lbls : List (StepLabel S SE LErr)) (htr : WorkerTrace st lbls st₂) (k : Nat)
    (l0 : LoopInfo) (hget : st.loops.get? k = some l0) (hstop : l0.status = .stopping) :
    (∃ l', st₂.loops.get? k = some l' ∧ l'.status = .stopping ∧ l'.site = l0.site) ∧
      st₂.conns.filter (fun c => c.1 == k) = st.conns.filter (fun c => c.1 == k) := by
  revert l0 hget hstop
  induction htr with
  | nil st => exact fun l0 hget hstop => ⟨⟨l0, hget, hstop, rfl⟩, rfl⟩
  | cons hstep htl ih =>
    intro l0 hget hstop
    obtain ⟨⟨l', hg', hs', hsite'⟩, hconns⟩ :=
      stopped_loop_step _ _ _ hstep k l0 hget hstop
    obtain ⟨⟨l'', hg'', hs'', hsite''⟩, hconns₂⟩ := ih l' hg' hs'
    exact ⟨⟨l'', hg'', hs'', by rw [hsite'', hsite']⟩, by rw [hconns₂, hconns]⟩

/-! ## Claim theorems -/

/-- C1, counterexample.  The claim states that in `dispatch_directive`
the enqueue to worker `i+1` happens before the reply of worker `i` is
awaited.  On a fleet of two workers whose channels all succeed, the
trace of channel operations is `enqueue 0, awaitReply 0, enqueue 1,
awaitReply 1`: the enqueue to worker 1 comes *after* worker 0's reply is
awaited, refuting the claim. -/
theorem C1_counterexample :
    ¬ (evIdx (dispatch_directive
          [⟨.ok, .reply (.ok ())⟩, ⟨.ok, .reply (.ok ())⟩]).2 (.enqueue 1) <
       evIdx (dispatch_directive
          [⟨.ok, .reply (.ok ())⟩, ⟨.ok, .reply (.ok ())⟩]).2 (.awaitReply 0)) := by
  decide

/-- C1, amended.  `WorkerFleetOrchestrator::dispatch_directive` is fully
sequential: for every fleet in which every inbox feed succeeds, the reply
of worker `j` is awaited *before* the directive is enqueued to worker
`j+1` — one slow worker delays both the enqueue to and the reply from
every later worker; nothing overlaps. -/
theorem C1_dispatch_sequential (workers : List WorkerChannel)
    (hok : ∀ w ∈ workers, w.feed = .ok) (j : Nat) (hj : j + 1 < workers.length) :
    evIdx (dispatch_directive workers).2 (.awaitReply j) <
      evIdx (dispatch_directive workers).2 (.enqueue (j + 1)) := by
  have h1 := (evIdx_dispatchLoop workers hok 0 j (by omega) (by omega)).2
  have h2 := (evIdx_dispatchLoop workers hok 0 (j + 1) (by omega) (by omega)).1
  unfold dispatch_directive
  omega

/-- C1, witness for the amended theorem at a concrete two-worker fleet. -/
theorem C1_dispatch_sequential_witness :
    (∀ w ∈ ([⟨.ok, .reply (.ok ())⟩, ⟨.ok, .reply (.ok ())⟩] : List WorkerChannel),
        w.feed = .ok) ∧
    0 + 1 < ([⟨.ok, .reply (.ok ())⟩, ⟨.ok, .reply (.ok ())⟩] : List WorkerChannel).length ∧
    evIdx (dispatch_directive
        [⟨.ok, .reply (.ok ())⟩, ⟨.ok, .reply (.ok ())⟩]).2 (.awaitReply 0) <
      evIdx (dispatch_directive
        [⟨.ok, .reply (.ok ())⟩, ⟨.ok, .reply (.ok ())⟩]).2 (.enqueue (0 + 1)) :=
  ⟨by decide, by decide,
    C1_dispatch_sequential [⟨.ok, .reply (.ok ())⟩, ⟨.ok, .reply (.ok ())⟩]
      (by decide) 0 (by decide)⟩

/-- C9.  `ServiceSlot::update_svc` makes subsequent `get_svc` return the
new service; a snapshot obtained through `get_svc` before the update
still refers to the old service and is unaffected; and a read performed
either before or after the update observes either the previous or the
next service — never anything else.  (Tearing and pointer validity are
memory-level notions below this embedding; their functional content —
every read yields exactly the old or the new whole service — is what is
stated.) -/
theorem C9_service_slot_update (S : Type) (oldSvc newSvc : S) :
    (ServiceSlot.update_svc { inner := oldSvc } newSvc).get_svc = newSvc ∧
    (ServiceSlot.mk oldSvc).get_svc = oldSvc ∧
    ∀ afterUpdate : Bool,
      (if afterUpdate then ServiceSlot.update_svc { inner := oldSvc } newSvc
        else { inner := oldSvc }).get_svc = oldSvc ∨
      (if afterUpdate then ServiceSlot.update_svc { inner := oldSvc } newSvc
        else { inner := oldSvc }).get_svc = newSvc := by
  refine ⟨rfl, rfl, ?_⟩
  intro b
  cases b
  · exact Or.inl rfl
  · exact Or.inr rfl

/-- C5.  Every directive is all-or-nothing on its worker: if
`WorkerDirective::execute` returns an error, the worker state — every
site's deployed slot and staged entry, the loop registry and the spawned
connection tasks — is exactly what it was before the directive ran.
(Every mutation in the source happens only after all of the directive's
checks have passed; `CreateAndDeploy` builds the service and the listener
before staging, and deployment of a just-staged service cannot fail.) -/
theorem C5_failed_directive_leaves_state_unchanged (d : WorkerDirective S SE LErr)
    (st : WorkerState S) (e : CommandError SE LErr)
    (h : (execute d st).2 = .error e) : (execute d st).1 = st := by
  cases d with
  | stageService name factory =>
    cases hf : factory (get_svc st name) with
    | error e' => simp [execute, hf]
    | ok svc => simp [execute, hf] at h
  | updateDeployedWithStaged name =>
    cases hu : update_deployed_with_staged st name with
    | error e' => simp [execute, hu]
    | ok st' => simp [execute, hu] at h
  | deployNewFromStaged name lf =>
    cases lf with
    | error e' => simp [execute]
    | ok u =>
      cases hd : deploy_staged_service st name with
      | error e' => simp [execute, hd]
      | ok st' => simp [execute, hd] at h
  | createAndDeploy name factory lf =>
    cases hf : factory none with
    | error e' => simp [execute, hf]
    | ok svc =>
      cases lf with
      | error e' => simp [execute, hf]
      | ok u =>
        have hd := deploy_after_stage st name svc
        simp [execute, hf, hd] at h
  | abortStaging name =>
    cases ha : abortSite st name with
    | error e' => simp [execute, ha]
    | ok st' => simp [execute, ha] at h
  | removeService name =>
    cases hr : removeSite st name with
    | error e' => simp [execute, hr]
    | ok st' => simp [execute, hr] at h

/-- C5, witness: `UpdateDeployedWithStaged` against an empty worker fails
with `SiteNotExist` and leaves the state unchanged. -/
theorem C5_witness :
    (execute (.updateDeployedWithStaged "a" : WorkerDirective Nat Unit Unit)
        (initialWorkerState Nat)).2 = .error .siteNotExist ∧
    (execute (.updateDeployedWithStaged "a" : WorkerDirective Nat Unit Unit)
        (initialWorkerState Nat)).1 = initialWorkerState Nat :=
  ⟨by decide,
    C5_failed_directive_leaves_state_unchanged (.updateDeployedWithStaged "a")
      (initialWorkerState Nat) .siteNotExist (by decide)⟩

/-- C4, counterexample.  The claim states that `UpdateDeployedWithStaged`
fails with `PreparationNotExist` whenever the site has no staged entry.
On a site that exists but has neither a deployed service nor a staged
entry, the source checks the deployed slot first and returns
`PreviousHandlerNotExist`, not `PreparationNotExist`. -/
theorem C4_counterexample :
    stagedOf (⟨[("a", ⟨none, none⟩)], [], []⟩ : WorkerState Nat) "a" = none ∧
    (execute (.updateDeployedWithStaged "a" : WorkerDirective Nat Unit Unit)
        ⟨[("a", ⟨none, none⟩)], [], []⟩).2 = .error .previousHandlerNotExist ∧
    (CommandError.previousHandlerNotExist : CommandError Unit Unit) ≠
      .preparationNotExist := by
  decide

/-- C4, amended.  `UpdateDeployedWithStaged(name)` checks in order: a
missing site entry fails with `SiteNotExist`; a site without a deployed
service fails with `PreviousHandlerNotExist`; a site with a deployed
service but no staged entry fails with `PreparationNotExist`; it succeeds
exactly when both a deployed service and a staged entry exist, in which
case the staged service is moved into the deployed slot (the deployed
service becomes the staged one and the staged entry is cleared). -/
theorem C4_update_error_order (st : WorkerState S) (name : String) :
    (lookupSite st.sites name = none →
      (execute (.updateDeployedWithStaged name : WorkerDirective S SE LErr) st).2 =
        .error .siteNotExist) ∧
    (∀ sh, lookupSite st.sites name = some sh → sh.deployed_service = none →
      (execute (.updateDeployedWithStaged name : WorkerDirective S SE LErr) st).2 =
        .error .previousHandlerNotExist) ∧
    (∀ sh hdr, lookupSite st.sites name = some sh → sh.deployed_service = some hdr →
      sh.staged_service = none →
      (execute (.updateDeployedWithStaged name : WorkerDirective S SE LErr) st).2 =
        .error .preparationNotExist) ∧
    (∀ sh hdr staged, lookupSite st.sites name = some sh →
      sh.deployed_service = some hdr → sh.staged_service = some staged →
      (execute (.updateDeployedWithStaged name : WorkerDirective S SE LErr) st).2 = .ok () ∧
      get_svc (execute (.updateDeployedWithStaged name : WorkerDirective S SE LErr) st).1
          name = some staged ∧
      stagedOf (execute (.updateDeployedWithStaged name : WorkerDirective S SE LErr) st).1
          name = none) := by
  refine ⟨?_, ?_, ?_, ?_⟩
  · intro hl
    simp [execute, update_deployed_with_staged, hl, CommandError.fromDirectiveError]
  · intro sh hl hd
    simp [execute, update_deployed_with_staged, hl, hd, CommandError.fromDirectiveError]
  · intro sh hdr hl hd hs
    simp [execute, update_deployed_with_staged, hl, hd, hs, CommandError.fromDirectiveError]
  · intro sh hdr staged hl hd hs
    have hu := update_ok_characterization st name sh hdr staged hl hd hs
    refine ⟨by simp [execute, hu], ?_, ?_⟩
    · simp only [execute, hu]
      unfold get_svc
      rw [lookupSite_updateSite_self, hl]
      simp [ServiceSlot.update_svc, ServiceSlot.get_svc]
    · simp only [execute, hu]
      unfold stagedOf
      rw [lookupSite_updateSite_self, hl]
      simp

/-- C4, witness for the amended theorem: the success case at a concrete
site holding a deployed service `7` and a staged service `9`. -/
theorem C4_update_error_order_witness :
    lookupSite (⟨[("a", ⟨some ⟨⟨7⟩, 0⟩, some 9⟩)], [⟨"a", .running⟩], []⟩ :
        WorkerState Nat).sites "a" = some ⟨some ⟨⟨7⟩, 0⟩, some 9⟩ ∧
    (execute (.updateDeployedWithStaged "a" : WorkerDirective Nat Unit Unit)
        ⟨[("a", ⟨some ⟨⟨7⟩, 0⟩, some 9⟩)], [⟨"a", .running⟩], []⟩).2 = .ok () ∧
    get_svc (execute (.updateDeployedWithStaged "a" : WorkerDirective Nat Unit Unit)
        ⟨[("a", ⟨some ⟨⟨7⟩, 0⟩, some 9⟩)], [⟨"a", .running⟩], []⟩).1 "a" = some 9 ∧
    stagedOf (execute (.updateDeployedWithStaged "a" : WorkerDirective Nat Unit Unit)
        ⟨[("a", ⟨some ⟨⟨7⟩, 0⟩, some 9⟩)], [⟨"a", .running⟩], []⟩).1 "a" = none :=
  ⟨by decide,
    (C4_update_error_order
        (⟨[("a", ⟨some ⟨⟨7⟩, 0⟩, some 9⟩)], [⟨"a", .running⟩], []⟩ : WorkerState Nat)
        "a").2.2.2 ⟨some ⟨⟨7⟩, 0⟩, some 9⟩ ⟨⟨7⟩, 0⟩ 9 (by decide) (by decide) (by decide)⟩

/-- C8.  `StageService(name, F)` calls the factory's `make_via_ref` with
`old` equal to the currently deployed service for `name` (`Some` exactly
when one is deployed, `None` otherwise — that argument is `get_svc st
name`, whose deployed/absent dichotomy is stated in the last two
conjuncts); on success the produced service is written to the site's
staged slot, overwriting any previously staged entry, while the deployed
slot, every other site, the loop registry and the spawned connections are
unchanged. -/
theorem C8_stage_service (st : WorkerState S) (name : String)
    (factory : Option S → Except SE S) (svc : S)
    (hf : factory (get_svc st name) = .ok svc) :
    (execute (.stageService name factory : WorkerDirective S SE LErr) st).2 = .ok () ∧
    stagedOf (execute (.stageService name factory : WorkerDirective S SE LErr) st).1
        name = some svc ∧
    get_svc (execute (.stageService name factory : WorkerDirective S SE LErr) st).1
        name = get_svc st name ∧
    (∀ m, m ≠ name →
      lookupSite (execute (.stageService name factory : WorkerDirective S SE LErr) st).1.sites
          m = lookupSite st.sites m) ∧
    (execute (.stageService name factory : WorkerDirective S SE LErr) st).1.loops =
        st.loops ∧
    (execute (.stageService name factory : WorkerDirective S SE LErr) st).1.conns =
        st.conns ∧
    (∀ mgr, ((lookupSite st.sites name).bind fun sh => sh.deployed_service) = some mgr →
        get_svc st name = some mgr.slot.get_svc) ∧
    (((lookupSite st.sites name).bind fun sh => sh.deployed_service) = none →
        get_svc st name = none) := by
  have hexec : execute (.stageService name factory : WorkerDirective S SE LErr) st =
      (stage_svc st name svc, .ok ()) := by simp [execute, hf]
  rw [hexec]
  refine ⟨rfl, ?_, ?_, ?_, rfl, rfl, ?_, ?_⟩
  · unfold stagedOf
    rw [lookupSite_stage_svc_self]
    rfl
  · unfold get_svc
    rw [lookupSite_stage_svc_self]
    cases hl : lookupSite st.sites name with
    | none => simp [hl]
    | some sh => simp [hl]
  · intro m hm
    exact lookupSite_stage_svc_ne st name m svc hm
  · intro mgr hmgr
    unfold get_svc
    cases hl : lookupSite st.sites name with
    | none => rw [hl] at hmgr; simp at hmgr
    | some sh =>
      rw [hl] at hmgr
      simp only [Option.some_bind] at hmgr
      simp [hl, hmgr]
  · intro hnone
    unfold get_svc
    cases hl : lookupSite st.sites name with
    | none => simp [hl]
    | some sh =>
      rw [hl] at hnone
      simp only [Option.some_bind] at hnone
      simp [hl, hnone]

/-- C8, witness at a site with a deployed service `5` and an old staged
entry `3`: the factory sees `old = some 5`, its product `6` overwrites
the staged `3`, and the deployed slot still serves `5`. -/
theorem C8_stage_service_witness :
    ((fun o => match o with
        | some v => Except.ok (v + 1)
        | none => Except.ok 0) : Option Nat → Except Unit Nat)
      (get_svc (⟨[("a", ⟨some ⟨⟨5⟩, 0⟩, some 3⟩)], [⟨"a", .running⟩], []⟩ :
        WorkerState Nat) "a") = .ok 6 ∧
    ((execute (.stageService "a" (fun o => match o with
        | some v => Except.ok (v + 1)
        | none => Except.ok 0) : WorkerDirective Nat Unit Unit)
      ⟨[("a", ⟨some ⟨⟨5⟩, 0⟩, some 3⟩)], [⟨"a", .running⟩], []⟩).2 = .ok () ∧
    stagedOf (execute (.stageService "a" (fun o => match o with
        | some v => Except.ok (v + 1)
        | none => Except.ok 0) : WorkerDirective Nat Unit Unit)
      ⟨[("a", ⟨some ⟨⟨5⟩, 0⟩, some 3⟩)], [⟨"a", .running⟩], []⟩).1 "a" = some 6 ∧
    get_svc (execute (.stageService "a" (fun o => match o with
        | some v => Except.ok (v + 1)
        | none => Except.ok 0) : WorkerDirective Nat Unit Unit)
      ⟨[("a", ⟨some ⟨⟨5⟩, 0⟩, some 3⟩)], [⟨"a", .running⟩], []⟩).1 "a" =
      get_svc (⟨[("a", ⟨some ⟨⟨5⟩, 0⟩, some 3⟩)], [⟨"a", .running⟩], []⟩ :
        WorkerState Nat) "a" ∧
    (∀ m, m ≠ "a" →
      lookupSite (execute (.stageService "a" (fun o => match o with
          | some v => Except.ok (v + 1)
          | none => Except.ok 0) : WorkerDirective Nat Unit Unit)
        ⟨[("a", ⟨some ⟨⟨5⟩, 0⟩, some 3⟩)], [⟨"a", .running⟩], []⟩).1.sites m =
        lookupSite (⟨[("a", ⟨some ⟨⟨5⟩, 0⟩, some 3⟩)], [⟨"a", .running⟩], []⟩ :
          WorkerState Nat).sites m) ∧
    (execute (.stageService "a" (fun o => match o with
        | some v => Except.ok (v + 1)
        | none => Except.ok 0) : WorkerDirective Nat Unit Unit)
      ⟨[("a", ⟨some ⟨⟨5⟩, 0⟩, some 3⟩)], [⟨"a", .running⟩], []⟩).1.loops =
      (⟨[("a", ⟨some ⟨⟨5⟩, 0⟩, some 3⟩)], [⟨"a", .running⟩], []⟩ :
        WorkerState Nat).loops ∧
    (execute (.stageService "a" (fun o => match o with
        | some v => Except.ok (v + 1)
        | none => Except.ok 0) : WorkerDirective Nat Unit Unit)
      ⟨[("a", ⟨some ⟨⟨5⟩, 0⟩, some 3⟩)], [⟨"a", .running⟩], []⟩).1.conns =
      (⟨[("a", ⟨some ⟨⟨5⟩, 0⟩, some 3⟩)], [⟨"a", .running⟩], []⟩ :
        WorkerState Nat).conns ∧
    (∀ mgr, ((lookupSite (⟨[("a", ⟨some ⟨⟨5⟩, 0⟩, some 3⟩)], [⟨"a", .running⟩], []⟩ :
          WorkerState Nat).sites "a").bind fun sh => sh.deployed_service) = some mgr →
        get_svc (⟨[("a", ⟨some ⟨⟨5⟩, 0⟩, some 3⟩)], [⟨"a", .running⟩], []⟩ :
          WorkerState Nat) "a" = some mgr.slot.get_svc) ∧
    (((lookupSite (⟨[("a", ⟨some ⟨⟨5⟩, 0⟩, some 3⟩)], [⟨"a", .running⟩], []⟩ :
          WorkerState Nat).sites "a").bind fun sh => sh.deployed_service) = none →
        get_svc (⟨[("a", ⟨some ⟨⟨5⟩, 0⟩, some 3⟩)], [⟨"a", .running⟩], []⟩ :
          WorkerState Nat) "a" = none)) :=
  ⟨by decide,
    C8_stage_service
      (⟨[("a", ⟨some ⟨⟨5⟩, 0⟩, some 3⟩)], [⟨"a", .running⟩], []⟩ : WorkerState Nat)
      "a"
      (fun o => match o with
        | some v => Except.ok (v + 1)
        | none => Except.ok 0) 6 (by decide)⟩

/-- C2, counterexample.  The claim includes the case where no site entry
for the name existed beforehand.  `stage_svc` creates the entry
(`entry(name).or_insert_with(new)`) and `abort` clears only the staged
slot, leaving an empty entry behind; a subsequent `AbortStaging("a")`
replies `Ok` after the pair but `SiteNotExist` before it, so the pair is
externally observable. -/
theorem C2_counterexample :
    (execute (.abortStaging "a" : WorkerDirective Nat Unit Unit)
        (execute (.abortStaging "a" : WorkerDirective Nat Unit Unit)
          (execute (.stageService "a" (fun _ => .ok 0) : WorkerDirective Nat Unit Unit)
            (initialWorkerState Nat)).1).1).2 = .ok () ∧
    (execute (.abortStaging "a" : WorkerDirective Nat Unit Unit)
        (initialWorkerState Nat)).2 = .error .siteNotExist := by
  decide

/-- C2, amended.  When a site entry for `name` already exists and its
staged slot is empty, `StageService(name, F)` (with `F` succeeding)
followed by `AbortStaging(name)` restores the worker state exactly, so
every subsequent directive returns the same reply and has the same
effect as before the pair; both directives of the pair reply `Ok`.  When
no entry existed beforehand, the pair instead leaves behind an entry
with empty deployed and staged slots, which later existence-checking
directives can observe. -/
theorem C2_stage_abort_roundtrip (st : WorkerState S) (name : String)
    (factory : Option S → Except SE S) (svc : S) (sh : ServiceDeploymentManager S)
    (hf : factory (get_svc st name) = .ok svc)
    (hl : lookupSite st.sites name = some sh)
    (hs : sh.staged_service = none) :
    (execute (.abortStaging name : WorkerDirective S SE LErr)
        (execute (.stageService name factory : WorkerDirective S SE LErr) st).1).1 = st ∧
    (execute (.stageService name factory : WorkerDirective S SE LErr) st).2 = .ok () ∧
    (execute (.abortStaging name : WorkerDirective S SE LErr)
        (execute (.stageService name factory : WorkerDirective S SE LErr) st).1).2 =
      .ok () ∧
    ∀ d : WorkerDirective S SE LErr,
      execute d (execute (.abortStaging name : WorkerDirective S SE LErr)
          (execute (.stageService name factory : WorkerDirective S SE LErr) st).1).1 =
        execute d st := by
  have hexec : execute (.stageService name factory : WorkerDirective S SE LErr) st =
      (stage_svc st name svc, .ok ()) := by simp [execute, hf]
  have hsites₁ : (stage_svc st name svc).sites =
      updateSite st.sites name (fun v => { v with staged_service := some svc }) := by
    simp [stage_svc, hl]
  have hl₁ : lookupSite (stage_svc st name svc).sites name =
      some { sh with staged_service := some svc } := by
    rw [hsites₁, lookupSite_updateSite_self, hl]
    rfl
  have habort : abortSite (stage_svc st name svc) name = .ok
      { stage_svc st name svc with
        sites := updateSite (stage_svc st name svc).sites name
          fun v => { v with staged_service := none } } := by
    simp [abortSite, hl₁]
  have hback : updateSite (stage_svc st name svc).sites name
      (fun v => { v with staged_service := none }) = st.sites := by
    rw [hsites₁, updateSite_updateSite]
    refine updateSite_eq_self st.sites name _ sh hl ?_
    obtain ⟨d, g⟩ := sh
    simp at hs
    simp [hs]
  have hstate : (execute (.abortStaging name : WorkerDirective S SE LErr)
      (execute (.stageService name factory : WorkerDirective S SE LErr) st).1).1 = st := by
    rw [hexec]
    simp only [execute, habort]
    show ({ stage_svc st name svc with
      sites := updateSite (stage_svc st name svc).sites name
        fun v => { v with staged_service := none } } : WorkerState S) = st
    rw [hback]
    rfl
  refine ⟨hstate, by rw [hexec], ?_, ?_⟩
  · rw [hexec]
    simp [execute, habort]
  · intro d
    rw [hstate]

/-- C2, witness for the amended round-trip at a site that exists with an
empty staged slot. -/
theorem C2_stage_abort_roundtrip_witness :
    ((fun _ => Except.ok 1) : Option Nat → Except Unit Nat)
      (get_svc (⟨[("a", ⟨none, none⟩)], [], []⟩ : WorkerState Nat) "a") = .ok 1 ∧
    lookupSite (⟨[("a", ⟨none, none⟩)], [], []⟩ : WorkerState Nat).sites "a" =
      some ⟨none, none⟩ ∧
    ((execute (.abortStaging "a" : WorkerDirective Nat Unit Unit)
        (execute (.stageService "a" (fun _ => Except.ok 1) : WorkerDirective Nat Unit Unit)
          (⟨[("a", ⟨none, none⟩)], [], []⟩ : WorkerState Nat)).1).1 =
      (⟨[("a", ⟨none, none⟩)], [], []⟩ : WorkerState Nat) ∧
    (execute (.stageService "a" (fun _ => Except.ok 1) : WorkerDirective Nat Unit Unit)
        (⟨[("a", ⟨none, none⟩)], [], []⟩ : WorkerState Nat)).2 = .ok () ∧
    (execute (.abortStaging "a" : WorkerDirective Nat Unit Unit)
        (execute (.stageService "a" (fun _ => Except.ok 1) : WorkerDirective Nat Unit Unit)
          (⟨[("a", ⟨none, none⟩)], [], []⟩ : WorkerState Nat)).1).2 = .ok () ∧
    ∀ d : WorkerDirective Nat Unit Unit,
      execute d (execute (.abortStaging "a" : WorkerDirective Nat Unit Unit)
          (execute (.stageService "a" (fun _ => Except.ok 1) : WorkerDirective Nat Unit Unit)
            (⟨[("a", ⟨none, none⟩)], [], []⟩ : WorkerState Nat)).1).1 =
        execute d (⟨[("a", ⟨none, none⟩)], [], []⟩ : WorkerState Nat)) :=
  ⟨by decide, by decide,
    C2_stage_abort_roundtrip (⟨[("a", ⟨none, none⟩)], [], []⟩ : WorkerState Nat) "a"
      (fun _ => Except.ok 1) 1 ⟨none, none⟩ (by decide) (by decide) (by decide)⟩

/-- C6.  In every reachable worker state — under any sequence of
directives and accept-loop steps from the fresh worker — at most one
accept loop per site is running (not yet stop-signalled): two running
loops serving the same site name are the same loop.  A deploy on an
already-deployed site stop-signals the previous loop in the same
controller turn that spawns the new one (the old `ServiceManager` and its
stop receiver are dropped by the slot overwrite), and a stop-signalled
loop is draining, not running. -/
theorem C6_at_most_one_running_loop (S SE LErr : Type) (st : WorkerState S)
    (h : ReachableWorker SE LErr st) (i j : Nat) (li lj : LoopInfo)
    (hi : st.loops.get? i = some li) (hj : st.loops.get? j = some lj)
    (hri : li.status = .running) (hrj : lj.status = .running)
    (hsite : li.site = lj.site) : i = j := by
  have hinv := workerInv_reachable st SE LErr h
  obtain ⟨sh₁, mgr₁, hl₁, hd₁, hid₁⟩ := hinv.2.2 i li hi hri
  obtain ⟨sh₂, mgr₂, hl₂, hd₂, hid₂⟩ := hinv.2.2 j lj hj hrj
  rw [hsite, hl₂] at hl₁
  injection hl₁ with hl₁
  rw [← hl₁] at hd₁
  rw [hd₂] at hd₁
  injection hd₁ with hd₁
  rw [← hd₁] at hid₁
  rw [hid₂] at hid₁
  exact hid₁.symm

/-- C6, witness at a concrete reachable state holding one deployed site
with one running accept loop. -/
theorem C6_at_most_one_running_loop_witness :
    ReachableWorker Unit Unit
      (⟨[("a", ⟨some ⟨⟨0⟩, 0⟩, none⟩)], [⟨"a", .running⟩], []⟩ : WorkerState Nat) ∧
    (⟨[("a", ⟨some ⟨⟨0⟩, 0⟩, none⟩)], [⟨"a", .running⟩], []⟩ :
        WorkerState Nat).loops.get? 0 = some ⟨"a", .running⟩ ∧
    LoopStatus.running = LoopStatus.running ∧
    (0 : Nat) = 0 :=
  have hreach : ReachableWorker Unit Unit
      (⟨[("a", ⟨some ⟨⟨0⟩, 0⟩, none⟩)], [⟨"a", .running⟩], []⟩ : WorkerState Nat) :=
    ⟨[.directive (.createAndDeploy "a" (fun _ => Except.ok 0) (.ok ()))],
      WorkerTrace.cons (WorkerStep.directive _ _) (WorkerTrace.nil _)⟩
  ⟨hreach, rfl, rfl,
    C6_at_most_one_running_loop Nat Unit Unit
      (⟨[("a", ⟨some ⟨⟨0⟩, 0⟩, none⟩)], [⟨"a", .running⟩], []⟩ : WorkerState Nat)
      hreach 0 0 ⟨"a", .running⟩ ⟨"a", .running⟩ rfl rfl rfl rfl rfl⟩

/-- C7.  After `RemoveService(name)` completes successfully on a
(reachable) worker: (1) the accept loop that was serving the site is
stop-signalled and never spawns another connection task, whatever steps
follow; (2) as long as no later directive re-creates the site
(`StageService`/`CreateAndDeploy` for that name), no connection task at
all is spawned for that site name; and (3) as long as no later
`StageService(name, ·)` is executed, every subsequent
`UpdateDeployedWithStaged(name)` fails (a `CreateAndDeploy` consumes its
own staged entry, so even it does not enable the update). -/
theorem C7_remove_service (st st' : WorkerState S) (name : String)
    (hreach : ReachableWorker SE LErr st)
    (hexec : execute (.removeService name : WorkerDirective S SE LErr) st =
      (st', .ok ()))
    (lbls : List (StepLabel S SE LErr)) (st₂ : WorkerState S)
    (htr : WorkerTrace st' lbls st₂) :
    (∀ sh mgr, lookupSite st.sites name = some sh →
      sh.deployed_service = some mgr →
      st₂.conns.filter (fun c => c.1 == mgr.loopId) =
        st'.conns.filter (fun c => c.1 == mgr.loopId)) ∧
    ((∀ l ∈ lbls, ¬ l.recreatesSite name) →
      st₂.conns.filter (fun c => c.2 == name) =
        st'.conns.filter (fun c => c.2 == name)) ∧
    ((∀ l ∈ lbls, ¬ l.stagesSite name) →
      (execute (.updateDeployedWithStaged name : WorkerDirective S SE LErr) st₂).2 ≠
        .ok ()) := by
  have hinv := workerInv_reachable st SE LErr hreach
  have hrm : removeSite st name = .ok st' := by
    cases hr : removeSite st name with
    | error e => simp [execute, hr] at hexec
    | ok st₀ =>
      simp only [execute, hr, Prod.mk.injEq] at hexec
      exact congrArg Except.ok hexec.1
  obtain ⟨sh, hl, hst'⟩ := remove_ok_inversion st name st' hrm
  have hinv' : WorkerInv st' := workerInv_remove st st' name hinv hrm
  have hlnone : lookupSite st'.sites name = none := by
    rw [hst']
    show lookupSite (eraseSite st.sites name) name = none
    exact lookupSite_eraseSite_self_of_nodup st.sites name hinv.1
  have hq' : SiteQuiesced st' name := by
    refine ⟨hlnone, ?_⟩
    intro i l hget hsite
    cases hrunq : l.status with
    | stopping => rfl
    | running =>
      obtain ⟨sh₂, mgr₂, hl₂, _, _⟩ := hinv'.2.2 i l hget hrunq
      rw [hsite, hlnone] at hl₂
      exact Option.noConfusion hl₂
  have hc' : stagedClear st' name := by
    intro sh₂ hl₂
    rw [hlnone] at hl₂
    exact Option.noConfusion hl₂
  refine ⟨?_, ?_, ?_⟩
  · intro shx mgrx hlx hdx
    rw [hl] at hlx
    injection hlx with hlx
    rw [← hlx] at hdx
    obtain ⟨l, hgl, hsl⟩ := hinv.2.1 name sh mgrx hl hdx
    have hst'loops : st'.loops = signalStop st.loops mgrx.loopId := by
      rw [hst']
      show (match sh.deployed_service with
        | some old => signalStop st.loops old.loopId
        | none => st.loops) = signalStop st.loops mgrx.loopId
      simp [hdx]
    have hg' : st'.loops.get? mgrx.loopId =
        some { l with status := .stopping } := by
      rw [hst'loops, get?_signalStop_self, hgl]
      rfl
    exact (stopped_loop_trace st' st₂ lbls htr mgrx.loopId
      { l with status := .stopping } hg' rfl).2
  · intro hnr
    exact (quiesced_trace st' st₂ name lbls htr hq' hnr).2
  · intro hns
    exact update_fails_of_stagedClear st₂ name
      (stagedClear_trace st' st₂ name lbls htr hinv' hc' hns)

/-- C7, witness: remove the only deployed site of a concrete reachable
worker and take the empty suffix trace. -/
theorem C7_remove_service_witness :
    ReachableWorker Unit Unit
      (⟨[("a", ⟨some ⟨⟨0⟩, 0⟩, none⟩)], [⟨"a", .running⟩], []⟩ : WorkerState Nat) ∧
    execute (.removeService "a" : WorkerDirective Nat Unit Unit)
        (⟨[("a", ⟨some ⟨⟨0⟩, 0⟩, none⟩)], [⟨"a", .running⟩], []⟩ : WorkerState Nat) =
      ((⟨[], [⟨"a", .stopping⟩], []⟩ : WorkerState Nat), .ok ()) ∧
    ((∀ sh mgr,
        lookupSite (⟨[("a", ⟨some ⟨⟨0⟩, 0⟩, none⟩)], [⟨"a", .running⟩], []⟩ :
          WorkerState Nat).sites "a" = some sh →
        sh.deployed_service = some mgr →
        (⟨[], [⟨"a", .stopping⟩], []⟩ : WorkerState Nat).conns.filter
            (fun c => c.1 == mgr.loopId) =
          (⟨[], [⟨"a", .stopping⟩], []⟩ : WorkerState Nat).conns.filter
            (fun c => c.1 == mgr.loopId)) ∧
    ((∀ l ∈ ([] : List (StepLabel Nat Unit Unit)), ¬ l.recreatesSite "a") →
      (⟨[], [⟨"a", .stopping⟩], []⟩ : WorkerState Nat).conns.filter
          (fun c => c.2 == "a") =
        (⟨[], [⟨"a", .stopping⟩], []⟩ : WorkerState Nat).conns.filter
          (fun c => c.2 == "a")) ∧
    ((∀ l ∈ ([] : List (StepLabel Nat Unit Unit)), ¬ l.stagesSite "a") →
      (execute (.updateDeployedWithStaged "a" : WorkerDirective Nat Unit Unit)
        (⟨[], [⟨"a", .stopping⟩], []⟩ : WorkerState Nat)).2 ≠ .ok ())) :=
  have hreach : ReachableWorker Unit Unit
      (⟨[("a", ⟨some ⟨⟨0⟩, 0⟩, none⟩)], [⟨"a", .running⟩], []⟩ : WorkerState Nat) :=
    ⟨[.directive (.createAndDeploy "a" (fun _ => Except.ok 0) (.ok ()))],
      WorkerTrace.cons (WorkerStep.directive _ _) (WorkerTrace.nil _)⟩
  ⟨hreach, by decide,
    C7_remove_service
      (⟨[("a", ⟨some ⟨⟨0⟩, 0⟩, none⟩)], [⟨"a", .running⟩], []⟩ : WorkerState Nat)
      (⟨[], [⟨"a", .stopping⟩], []⟩ : WorkerState Nat) "a" hreach (by decide)
      [] _ (WorkerTrace.nil _)⟩

/-- C3, counterexample.  The claim quantifies over every listener factory
`LF`.  With a listener factory that fails to build, the two forms leave
different site tables: `CreateAndDeploy` builds the listener *before*
staging, so it leaves no entry behind, while `StageService` followed by
`DeployNewFromStaged` leaves the staged entry in place when the deploy
step fails at the listener build. -/
theorem C3_counterexample :
    (execute (.createAndDeploy "a" (fun _ => .ok 0) (.error ()) :
          WorkerDirective Nat Unit Unit)
        (initialWorkerState Nat)).1 ≠
      (execute (.deployNewFromStaged "a" (.error ()) : WorkerDirective Nat Unit Unit)
        (execute (.stageService "a" (fun _ => .ok 0) : WorkerDirective Nat Unit Unit)
          (initialWorkerState Nat)).1).1 := by
  decide

/-- C3, amended.  When no site entry for `name` exists, the service
factory succeeds, and the listener factory succeeds,
`CreateAndDeploy(name, F, LF)` is observationally equivalent to
`StageService(name, F)` followed by `DeployNewFromStaged(name, LF)`:
the combined directive produces exactly the final state of the pair
(same site table entry, same spawned accept loop) and every reply is
`Ok`.  When the listener factory fails, the two forms differ: the pair
leaves a staged entry, the combined form leaves no entry. -/
theorem C3_create_equiv_stage_deploy (st : WorkerState S) (name : String)
    (factory : Option S → Except SE S) (svc : S)
    (habsent : lookupSite st.sites name = none)
    (hf : factory none = .ok svc) :
    execute (.createAndDeploy name factory (.ok ()) : WorkerDirective S SE LErr) st =
      ((execute (.deployNewFromStaged name (.ok ()) : WorkerDirective S SE LErr)
          (execute (.stageService name factory : WorkerDirective S SE LErr) st).1).1,
        .ok ()) ∧
    (execute (.stageService name factory : WorkerDirective S SE LErr) st).2 = .ok () ∧
    (execute (.deployNewFromStaged name (.ok ()) : WorkerDirective S SE LErr)
        (execute (.stageService name factory : WorkerDirective S SE LErr) st).1).2 =
      .ok () := by
  have hget : get_svc st name = none := by
    unfold get_svc
    rw [habsent]
    rfl
  have hf' : factory (get_svc st name) = .ok svc := by rw [hget]; exact hf
  have hstage : execute (.stageService name factory : WorkerDirective S SE LErr) st =
      (stage_svc st name svc, .ok ()) := by simp [execute, hf']
  have hdep := deploy_after_stage st name svc
  refine ⟨?_, by rw [hstage], ?_⟩
  · rw [hstage]
    simp [execute, hf, hdep]
  · rw [hstage]
    simp [execute, hdep]

/-- C3, witness for the amended equivalence on an empty worker with
succeeding factories. -/
theorem C3_create_equiv_stage_deploy_witness :
    lookupSite (initialWorkerState Nat).sites "a" = none ∧
    ((fun _ => Except.ok 0) : Option Nat → Except Unit Nat) none = .ok 0 ∧
    (execute (.createAndDeploy "a" (fun _ => Except.ok 0) (.ok ()) :
          WorkerDirective Nat Unit Unit) (initialWorkerState Nat) =
      ((execute (.deployNewFromStaged "a" (.ok ()) : WorkerDirective Nat Unit Unit)
          (execute (.stageService "a" (fun _ => Except.ok 0) :
              WorkerDirective Nat Unit Unit) (initialWorkerState Nat)).1).1, .ok ()) ∧
    (execute (.stageService "a" (fun _ => Except.ok 0) : WorkerDirective Nat Unit Unit)
        (initialWorkerState Nat)).2 = .ok () ∧
    (execute (.deployNewFromStaged "a" (.ok ()) : WorkerDirective Nat Unit Unit)
        (execute (.stageService "a" (fun _ => Except.ok 0) :
            WorkerDirective Nat Unit Unit) (initialWorkerState Nat)).1).2 = .ok ()) :=
  ⟨by decide, by decide,
    C3_create_equiv_stage_deploy (initialWorkerState Nat) "a"
      (fun _ => Except.ok 0) 0 (by decide) (by decide)⟩

/-- C10.  `dispatch_directive` returns exactly one result per worker, in
worker index order: the result list has the fleet's length, and the entry
at each position is that worker's own outcome — a feed failure or a
canceled reply channel becomes an `Err` entry at that position rather
than a missing result. -/
theorem C10_one_result_per_worker (workers : List WorkerChannel) :
    (dispatch_directive workers).1.length = workers.length ∧
    (dispatch_directive workers).1 = workers.map workerResult := by
  have h := dispatchLoop_results workers 0
  unfold dispatch_directive
  exact ⟨by rw [h]; exact List.length_map _ _, h⟩

end Monolake
